import Mathlib

/-! # rancher/ipsec: topology store, ARP responder, SA monitor, templates

A shallow embedding of `store/metadata.go` (the `MetadataStore`), of the helper
`utils.IsContainerConsideredRunning`, of the vendored
`plugin-manager/utils.GetBridgeInfo`, of `backend/ipsec/templates.go` (the
`Templates`), of `monitor/watcher.go` (the SA monitor) and of
`arp/arp_proxy.go` (the ARP responder), followed by theorems about the
classification that one refresh computes, the templates that one reload
caches, the calls that one iteration of the monitor makes to the tunnel
daemon, and the replies of the responder.

Conventions of the embedding.

* A Go `map[string]T` is an association list with pairwise distinct keys;
  `GoMap.set` is the assignment `m[k] = v`, `GoMap.get?` the two-valued lookup
  `v, ok := m[k]` and `GoMap.getD` the one-valued lookup `m[k]`, which yields
  the zero value of `T` on a missing key.
* A Go `range` over a map visits the keys in an order the language leaves
  open.  Wherever the source ranges over a map that it received (the links of
  a service, the files of a CNI configuration), the list order of the
  association list is the order of that visit.
* A Go call returning `(value, error)` is a pair of the value and an optional
  error text.
* A method with a pointer receiver becomes a function from the receiver's
  state to its new state (and the returned values).
-/

namespace Ipsec

/-! ## Go maps -/

/-- The Go assignment `m[k] = v` on an association list: the binding of `k` is
replaced where it stands, or a new binding is appended. -/
def GoMap.set {α : Type} : List (String × α) → String → α → List (String × α)
  | [], k, v => [(k, v)]
  | (k', v') :: m, k, v => if k' = k then (k, v) :: m else (k', v') :: GoMap.set m k v

/-- The Go lookup `v, ok := m[k]`: `some v` when `ok`. -/
def GoMap.get? {α : Type} : List (String × α) → String → Option α
  | [], _ => none
  | (k', v') :: m, k => if k' = k then some v' else GoMap.get? m k

/-- The Go lookup `m[k]`, with the zero value `z` of the element type for a
missing key. -/
def GoMap.getD {α : Type} (m : List (String × α)) (k : String) (z : α) : α :=
  (GoMap.get? m k).getD z

/-- The test `_, ok := m[k]`. -/
def GoMap.contains {α : Type} (m : List (String × α)) (k : String) : Bool :=
  (GoMap.get? m k).isSome

/-- The keys of a map, in list order. -/
def GoMap.keys {α : Type} (m : List (String × α)) : List String :=
  m.map Prod.fst

/-! ## The metadata types

The library `go-rancher-metadata` is not part of the repository.  The types
below list the fields that the repository's code reads; every field defaults
to the Go zero value, so that `{}` is the zero value of the type. -/

/-- Modelled from the spec: the type `metadata.Container` of the metadata
library, with the fields read by `store/metadata.go` and `utils/utils.go`. -/
structure Container where
  PrimaryIp : String := ""
  HostUUID : String := ""
  NetworkUUID : String := ""
  NetworkFromContainerUUID : String := ""
  State : String := ""
  ServiceName : String := ""
deriving DecidableEq

/-- Modelled from the spec: the type `metadata.Host` of the metadata library,
with the fields read by the store, the monitor and `GetBridgeInfo`. -/
structure Host where
  UUID : String := ""
  AgentIP : String := ""
  Labels : List (String × String) := []
deriving DecidableEq

mutual
/-- Modelled from the spec: a decoded JSON value, the dynamic content of an
`interface{}` held in `Network.Metadata`. -/
inductive JVal where
  | null
  | bool (b : Bool)
  | num (text : String)
  | str (s : String)
  | arr (xs : JList)
  | obj (kvs : JObj)
/-- A JSON array. -/
inductive JList where
  | nil
  | cons (v : JVal) (rest : JList)
/-- A `map[string]interface{}`, in the order a `range` visits it. -/
inductive JObj where
  | nil
  | cons (k : String) (v : JVal) (rest : JObj)
end

/-- Modelled from the spec: the type `metadata.Network` of the metadata
library. -/
structure Network where
  UUID : String := ""
  Name : String := ""
  Metadata : JObj := JObj.nil

/-- Modelled from the spec: the type `metadata.Service` of the metadata
library.  `Links` is a `map[string]string`. -/
structure Service where
  UUID : String := ""
  Name : String := ""
  StackName : String := ""
  System : Bool := false
  State : String := ""
  Links : List (String × String) := []
  Containers : List Container := []
deriving DecidableEq

/-- Modelled from the spec: the type `metadata.Environment` of the metadata
library, one linked environment of a region. -/
structure Environment where
  Hosts : List Host := []
  Networks : List Network := []
  Containers : List Container := []

/-- Modelled from the spec: the interface `metadata.Client`.  Each call of the
source is answered by the pair of a value and an optional error. -/
structure MetadataClient where
  GetSelfContainer : Container × Option String := ({}, none)
  GetSelfHost : Host × Option String := ({}, none)
  GetRegionName : String × Option String := ("", none)
  GetHosts : List Host × Option String := ([], none)
  GetContainers : List Container × Option String := ([], none)
  GetSelfService : Service × Option String := ({}, none)
  GetServices : List Service × Option String := ([], none)
  GetNetworks : List Network × Option String := ([], none)
  GetEnvironments : List Environment × Option String := ([], none)

/-! ## The store -/

/-- Modelled from the spec: the type `Entry` of package `store`, whose
declaration is not among the sources; `getEntryFromContainer` builds it from
four positional values: the address with its prefix, the address of the owning
host, the self flag and the peer flag. -/
structure Entry where
  IPAddress : String := ""
  HostIPAddress : String := ""
  Self : Bool := false
  Peer : Bool := false
deriving DecidableEq

/-- The information fetched from the metadata server (`InfoFromMetadata`). -/
structure InfoFromMetadata where
  region : String := ""
  selfContainer : Container := {}
  selfHost : Host := {}
  selfService : Service := {}
  selfNetwork : Network := {}
  selfNetworkSubnetPrefix : String := ""
  services : List Service := []
  servicesMapByName : List (String × List Service) := []
  hosts : List Host := []
  containers : List Container := []
  hostsMap : List (String × Host) := []
  networksMap : List (String × Network) := []

/-- The information for the regions feature (`RegionsInfo`). -/
structure RegionsInfo where
  peersNetworks : List (String × Bool) := []
  peersContainers : List Container := []
  nonPeersContainers : List Container := []
  hosts : List Host := []

/-- The store (`MetadataStore`).  The field `local` of the source is
`localMap` here, `local` being reserved; `info` is a pointer, `none` when
nil. -/
structure MetadataStore where
  mc : MetadataClient := {}
  self : Entry := {}
  entries : List Entry := []
  localMap : List (String × Entry) := []
  remote : List (String × Entry) := []
  peersMap : List (String × Entry) := []
  remoteNonPeersMap : List (String × Entry) := []
  info : Option InfoFromMetadata := none
  localSubnet : String := ""

/-- The constant `defaultSubnetPrefix`. -/
def defaultSubnetPrefix : String := "/16"

/-! ## Strings -/

/-- The Go expression `strings.Split(s, "/")[0]`: the text before the first
`/`, the whole of `s` when it has none. -/
def splitFirst (s : String) : String :=
  String.mk (s.data.takeWhile (fun ch => ch != '/'))

/-- The Go function `unicode.IsSpace`. -/
def goIsSpace (ch : Char) : Bool :=
  let n := ch.toNat
  (9 ≤ n && n ≤ 13) || n == 32 || n == 133 || n == 160 || n == 5760 ||
    (8192 ≤ n && n ≤ 8202) || n == 8232 || n == 8233 || n == 8239 ||
    n == 8287 || n == 12288

/-- The Go function `strings.TrimSpace`. -/
def TrimSpace (s : String) : String :=
  String.mk ((s.data.dropWhile goIsSpace).reverse.dropWhile goIsSpace).reverse

/-- The Go function `strings.HasPrefix`. -/
def HasPrefix (s pre : String) : Bool :=
  pre.data.isPrefixOf s.data

/-- The Go expression `strings.SplitN(s, ":", 2)`: one piece when `s` has no
colon, otherwise the text before the first colon and the text after it. -/
def SplitN2 (s : String) : List String :=
  let before := s.data.takeWhile (fun ch => ch != ':')
  let rest := s.data.dropWhile (fun ch => ch != ':')
  match rest with
  | [] => [String.mk before]
  | _ :: after => [String.mk before, String.mk after]

/-! ## `utils.IsContainerConsideredRunning` -/

/-- A container is considered running in the states running, starting and
stopping. -/
def IsContainerConsideredRunning (aContainer : Container) : Bool :=
  aContainer.State == "running" || aContainer.State == "starting" ||
    aContainer.State == "stopping"

/-! ## `plugin-manager/utils` -/

/-- The constant `hostLabelKeyword`. -/
def hostLabelKeyword : String := "__host_label__"

/-- The lookup `props[key]` in a `map[string]interface{}`; `none` is the nil
interface of a missing key. -/
def JObj.get? : JObj → String → Option JVal
  | JObj.nil, _ => none
  | JObj.cons k v rest, key => if k = key then some v else JObj.get? rest key

/-- The one-valued assertion `m, _ := v.(map[string]interface{})`: the nil
map when `v` is no map. -/
def asMap (v : Option JVal) : JObj :=
  match v with
  | some (JVal.obj kvs) => kvs
  | _ => JObj.nil

/-- The one-valued assertion `s, _ := v.(string)`. -/
def asString (v : Option JVal) : String :=
  match v with
  | some (JVal.str s) => s
  | _ => ""

/-- The string branch of the loop of `UpdateCNIConfigByKeywords`: a value that
starts with the host-label keyword is replaced by the host's value of the
label named after the colon, or by the empty string. -/
def replaceHostLabel (v : String) (host : Host) : String :=
  if HasPrefix v hostLabelKeyword then
    match SplitN2 v with
    | _ :: second :: _ =>
      let labelValue := GoMap.getD host.Labels (TrimSpace second) ""
      if labelValue != "" then labelValue else ""
    | _ => ""
  else v

mutual
/-- The function `UpdateCNIConfigByKeywords`: a value that is no map is
returned as it is. -/
def UpdateCNIConfigByKeywords : JVal → Host → JVal
  | JVal.obj props, host => JVal.obj (updateProps props host)
  | config, _ => config
/-- The loop of `UpdateCNIConfigByKeywords` over the keys of `props`. -/
def updateProps : JObj → Host → JObj
  | JObj.nil, _ => JObj.nil
  | JObj.cons aKey (JVal.str v) rest, host =>
    JObj.cons aKey (JVal.str (replaceHostLabel v host)) (updateProps rest host)
  | JObj.cons aKey aValue rest, host =>
    JObj.cons aKey (UpdateCNIConfigByKeywords aValue host) (updateProps rest host)
end

/-- The loop of `GetBridgeInfo` over the files of the CNI configuration, from
the current values of `bridge` and `bridgeSubnet`. -/
def bridgeInfoLoop (host : Host) : JObj → String × String → String × String
  | JObj.nil, acc => acc
  | JObj.cons _ file rest, acc =>
    let props := asMap (some (UpdateCNIConfigByKeywords file host))
    let cniType := asString (JObj.get? props "type")
    let checkBridge := asString (JObj.get? props "bridge")
    let bridgeSubnet := asString (JObj.get? props "bridgeSubnet")
    if cniType == "rancher-bridge" && checkBridge != "" then
      (checkBridge, bridgeSubnet)
    else bridgeInfoLoop host rest (acc.1, bridgeSubnet)

/-- The function `GetBridgeInfo`: the bridge and the bridge subnet of the CNI
configuration of a network. -/
def GetBridgeInfo (network : Network) (host : Host) : String × String :=
  let conf := asMap (JObj.get? network.Metadata "cniConfig")
  bridgeInfoLoop host conf ("", "")

/-! ## `store/metadata.go` -/

/-- The method `IsRemote`. -/
def IsRemote (ms : MetadataStore) (ipAddress : String) : Bool :=
  match GoMap.get? ms.localMap ipAddress with
  | some _ => false
  | none =>
    match GoMap.get? ms.remote ipAddress with
    | some _ => true
    | none => false

/-- The method `Entries`. -/
def Entries (ms : MetadataStore) : List Entry := ms.entries

/-- The method `RemoteEntriesMap`. -/
def RemoteEntriesMap (ms : MetadataStore) : List (String × Entry) := ms.remote

/-- The method `PeerEntriesMap`. -/
def PeerEntriesMap (ms : MetadataStore) : List (String × Entry) := ms.peersMap

/-- The method `RemoteNonPeerEntriesMap`. -/
def RemoteNonPeerEntriesMap (ms : MetadataStore) : List (String × Entry) :=
  ms.remoteNonPeersMap

/-- The method `LocalSubnet`. -/
def LocalSubnet (ms : MetadataStore) : String := ms.localSubnet

/-- The method `LocalHostIPAddress`. -/
def LocalHostIPAddress (ms : MetadataStore) : String := ms.self.HostIPAddress

/-- The method `getEntryFromContainer`, which reads the store through
`ms.info` only; its error result is always nil. -/
def getEntryFromContainer (info : InfoFromMetadata) (c : Container) : Entry :=
  let isSelf := c.PrimaryIp == info.selfContainer.PrimaryIp
  let isPeer := false
  let hostIP := (GoMap.getD info.hostsMap c.HostUUID {}).AgentIP
  { IPAddress := c.PrimaryIp ++ info.selfNetworkSubnetPrefix
    HostIPAddress := hostIP
    Self := isSelf
    Peer := isPeer }

/-- The function `getHostsMapFromHostsArray`. -/
def getHostsMapFromHostsArray (hosts : List Host) : List (String × Host) :=
  hosts.foldl (fun hostsMap h => GoMap.set hostsMap h.UUID h) []

/-- The function `getNetworksMapFromNetworksArray`. -/
def getNetworksMapFromNetworksArray (networks : List Network) :
    List (String × Network) :=
  networks.foldl (fun networksMap aNetwork =>
    GoMap.set networksMap aNetwork.UUID aNetwork) []

/-- The method `getLinkedFromServicesToSelf`. -/
def getLinkedFromServicesToSelf (info : InfoFromMetadata) : List Service :=
  let linkedTo := info.selfService.StackName ++ "/" ++ info.selfService.Name
  info.services.foldl (fun linkedFromServices service =>
    if !service.System then linkedFromServices
    else
      let linkedFromServiceName := service.StackName ++ "/" ++ service.Name
      if service.Links.length > 0 then
        service.Links.foldl (fun acc link =>
          if link.1 != linkedTo then acc
          else acc ++ GoMap.getD info.servicesMapByName linkedFromServiceName [])
          linkedFromServices
      else linkedFromServices) []

/-- The network of one linked environment whose name is the self network's
name: the inner loop of `getRegionsInfo` stops at the first one and leaves
the zero network when there is none. -/
def findPeerNetwork (info : InfoFromMetadata) (networks : List Network) :
    Option Network :=
  networks.find? (fun aNetwork => aNetwork.Name == info.selfNetwork.Name)

/-- The body of the loop of `getRegionsInfo` over the containers of one
environment, `peerNetworkUUID` being the UUID of that environment's peer
network. -/
def regionContainerStep (info : InfoFromMetadata) (peerNetworkUUID : String)
    (acc : RegionsInfo) (aContainer : Container) : RegionsInfo :=
  if !(aContainer.State == "running" || aContainer.State == "starting") then acc
  else if aContainer.NetworkUUID != peerNetworkUUID ||
      aContainer.PrimaryIp == "" ||
      aContainer.NetworkFromContainerUUID != "" then acc
  else if aContainer.ServiceName == info.selfService.Name then
    { acc with peersContainers := acc.peersContainers ++ [aContainer] }
  else
    { acc with nonPeersContainers := acc.nonPeersContainers ++ [aContainer] }

/-- The body of the loop of `getRegionsInfo` over the environments. -/
def regionEnvironmentStep (info : InfoFromMetadata) (acc : RegionsInfo)
    (aEnvironment : Environment) : RegionsInfo :=
  let acc1 := { acc with hosts := acc.hosts ++ aEnvironment.Hosts }
  let found := findPeerNetwork info aEnvironment.Networks
  let acc2 :=
    match found with
    | some aNetwork =>
      { acc1 with peersNetworks := GoMap.set acc1.peersNetworks aNetwork.UUID true }
    | none => acc1
  let peerNetwork : Network := found.getD {}
  aEnvironment.Containers.foldl (regionContainerStep info peerNetwork.UUID) acc2

/-- The method `getRegionsInfo`: an error when the environments cannot be
fetched. -/
def getRegionsInfo (mc : MetadataClient) (info : InfoFromMetadata) :
    Except String RegionsInfo :=
  match mc.GetEnvironments.2 with
  | some err => Except.error err
  | none => Except.ok (mc.GetEnvironments.1.foldl (regionEnvironmentStep info) {})

/-- The body of the container loops of `getLinkedPeersInfo` (the same in both
branches): a running container on a network named like the self network is a
linked peer, and its network a peer network. -/
def linkedContainerStep (info : InfoFromMetadata)
    (acc : List (String × Bool) × List Container) (aContainer : Container) :
    List (String × Bool) × List Container :=
  if !IsContainerConsideredRunning aContainer then acc
  else if (GoMap.getD info.networksMap aContainer.NetworkUUID {}).Name !=
      info.selfNetwork.Name then acc
  else
    (if GoMap.contains acc.1 aContainer.NetworkUUID then acc.1
      else GoMap.set acc.1 aContainer.NetworkUUID true,
     acc.2 ++ [aContainer])

/-- The loops of `getLinkedPeersInfo` over a list of services and their
containers. -/
def linkedServicesLoop (info : InfoFromMetadata) (services : List Service)
    (acc : List (String × Bool) × List Container) :
    List (String × Bool) × List Container :=
  services.foldl (fun acc1 aService =>
    aService.Containers.foldl (linkedContainerStep info) acc1) acc

/-- The method `getLinkedPeersInfo`: the peer networks and peer containers
reached through the links of the self service or, when it has none, through
the services linking to it. -/
def getLinkedPeersInfo (info : InfoFromMetadata) :
    List (String × Bool) × List Container :=
  if info.selfService.Links.length > 0 then
    info.selfService.Links.foldl (fun acc link =>
      match GoMap.get? info.servicesMapByName link.1 with
      | none => acc
      | some linkedServices => linkedServicesLoop info linkedServices acc) ([], [])
  else
    linkedServicesLoop info (getLinkedFromServicesToSelf info) ([], [])

/-- The locals of `doInternalRefresh` once the region has been looked at
(lines 336 to 360 of the source). -/
structure Candidates where
  peersNetworks : List (String × Bool) := []
  allHosts : List Host := []
  allContainers : List Container := []
  allPeersContainers : List Container := []

/-- The first part of `doInternalRefresh`: the peer networks, with the self
network added, and the hosts, containers and peer containers of the local
environment, extended by those of the region when a region is set and its
environments can be fetched. -/
def gatherCandidates (mc : MetadataClient) (info : InfoFromMetadata) : Candidates :=
  let linked := getLinkedPeersInfo info
  let peersNetworks := GoMap.set linked.1 info.selfContainer.NetworkUUID true
  let allHosts := info.hosts
  let allContainers := info.containers
  let allPeersContainers := linked.2
  if info.region != "" then
    match getRegionsInfo mc info with
    | Except.error _ =>
      { peersNetworks := peersNetworks, allHosts := allHosts,
        allContainers := allContainers, allPeersContainers := allPeersContainers }
    | Except.ok regionsInfo =>
      { peersNetworks := regionsInfo.peersNetworks.foldl
          (fun m kv => GoMap.set m kv.1 kv.2) peersNetworks
        allHosts := allHosts ++ regionsInfo.hosts
        allContainers :=
          (allContainers ++ regionsInfo.peersContainers) ++ regionsInfo.nonPeersContainers
        allPeersContainers := allPeersContainers ++ regionsInfo.peersContainers }
  else
    { peersNetworks := peersNetworks, allHosts := allHosts,
      allContainers := allContainers, allPeersContainers := allPeersContainers }

/-- The value of `ms.info` after line 362: the hosts map is built from all
hosts. -/
def refreshedInfo (mc : MetadataClient) (info : InfoFromMetadata) : InfoFromMetadata :=
  { info with hostsMap := getHostsMapFromHostsArray (gatherCandidates mc info).allHosts }

/-- The value of `allPeersContainers` after the loop of lines 365 to 369: the
running containers of the self service are appended. -/
def peerContainers (mc : MetadataClient) (info : InfoFromMetadata) : List Container :=
  (gatherCandidates mc info).allPeersContainers ++
    info.selfService.Containers.filter IsContainerConsideredRunning

/-- The loop of lines 371 to 376: the peers map; a later container with the
same bare IP overwrites an earlier one. -/
def buildPeersMap (info : InfoFromMetadata) (allPeersContainers : List Container) :
    List (String × Entry) :=
  allPeersContainers.foldl (fun peersMap sc =>
    let e := { getEntryFromContainer info sc with Peer := true }
    let ipNoCidr := splitFirst e.IPAddress
    GoMap.set peersMap ipNoCidr e) []

/-- The locals that the loop of lines 378 to 417 updates. -/
structure Classification where
  seen : List (String × Bool) := []
  entries : List Entry := []
  localMap : List (String × Entry) := []
  remote : List (String × Entry) := []
  remoteNonPeersMap : List (String × Entry) := []

/-- The body of the loop of lines 378 to 417, `selfEntry` being `ms.self`. -/
def classifyStep (info : InfoFromMetadata) (selfEntry : Entry)
    (peersNetworks : List (String × Bool)) (peersMap : List (String × Entry))
    (st : Classification) (c : Container) : Classification :=
  if !IsContainerConsideredRunning c then st
  else
    let isPresentInPeersNetworks := GoMap.contains peersNetworks c.NetworkUUID
    if !isPresentInPeersNetworks || c.PrimaryIp == "" ||
        c.NetworkFromContainerUUID != "" then st
    else
      let e := getEntryFromContainer info c
      let ipNoCidr := splitFirst e.IPAddress
      if GoMap.getD st.seen ipNoCidr false then st
      else
        let seen := GoMap.set st.seen ipNoCidr true
        let e1 := if GoMap.contains peersMap ipNoCidr then { e with Peer := true } else e
        if e1.HostIPAddress == selfEntry.HostIPAddress then
          { st with
            seen := seen
            localMap := GoMap.set st.localMap ipNoCidr e1
            entries := st.entries ++ [e1] }
        else
          { st with
            seen := seen
            remote := GoMap.set st.remote ipNoCidr e1
            remoteNonPeersMap :=
              if !e1.Peer then GoMap.set st.remoteNonPeersMap ipNoCidr e1
              else st.remoteNonPeersMap
            entries := st.entries ++ [e1] }

/-- The loop of lines 378 to 417 over the candidate containers. -/
def classify (info : InfoFromMetadata) (selfEntry : Entry)
    (peersNetworks : List (String × Bool)) (peersMap : List (String × Entry))
    (allContainers : List Container) : Classification :=
  allContainers.foldl (classifyStep info selfEntry peersNetworks peersMap) {}

/-- The method `doInternalRefresh`; `info` is the value `ms.info` points to. -/
def doInternalRefresh (ms : MetadataStore) (info : InfoFromMetadata) : MetadataStore :=
  let cand := gatherCandidates ms.mc info
  let info1 := refreshedInfo ms.mc info
  let selfEntry := getEntryFromContainer info1 info1.selfContainer
  let peersMap := buildPeersMap info1 (peerContainers ms.mc info)
  let st := classify info1 selfEntry cand.peersNetworks peersMap cand.allContainers
  { ms with
    info := some info1
    self := selfEntry
    entries := st.entries
    peersMap := peersMap
    localMap := st.localMap
    remote := st.remote
    remoteNonPeersMap := st.remoteNonPeersMap }

/-- The function `getServicesMapByName`: the system services other than the
self service, by `stack_name/service_name`. -/
def getServicesMapByName (services : List Service) (selfService : Service) :
    List (String × List Service) :=
  services.foldl (fun servicesMapByName aService =>
    if !aService.System || aService.UUID == selfService.UUID then servicesMapByName
    else
      let key := aService.StackName ++ "/" ++ aService.Name
      match GoMap.get? servicesMapByName key with
      | some value => GoMap.set servicesMapByName key (value ++ [aService])
      | none => GoMap.set servicesMapByName key [aService]) []

/-- The function `getSubnetPrefixFromNetworkConfig`: every path through the
body of its loop returns, so the first file visited decides. -/
def getSubnetPrefixFromNetworkConfig (network : Network) : String :=
  let conf := asMap (JObj.get? network.Metadata "cniConfig")
  match conf with
  | JObj.nil => defaultSubnetPrefix
  | JObj.cons _ file _ =>
    let props := asMap (some file)
    match JObj.get? props "ipam" with
    | some (JVal.obj ipamConf) =>
      match JObj.get? ipamConf "subnetPrefixSize" with
      | some (JVal.str sp) => sp
      | _ => defaultSubnetPrefix
    | _ => defaultSubnetPrefix

/-- The method `Reload`: the state of the store after the call, and the error
returned. -/
def Reload (ms : MetadataStore) : MetadataStore × Option String :=
  match ms.mc.GetSelfContainer.2 with
  | some err => (ms, some err)
  | none =>
  match ms.mc.GetSelfHost.2 with
  | some err => (ms, some err)
  | none =>
  match ms.mc.GetHosts.2 with
  | some err => (ms, some err)
  | none =>
  match ms.mc.GetContainers.2 with
  | some err => (ms, some err)
  | none =>
  match ms.mc.GetSelfService.2 with
  | some err => (ms, some err)
  | none =>
  match ms.mc.GetServices.2 with
  | some err => (ms, some err)
  | none =>
  match ms.mc.GetNetworks.2 with
  | some err => (ms, some err)
  | none =>
    let selfContainer := ms.mc.GetSelfContainer.1
    let selfHost := ms.mc.GetSelfHost.1
    let region := ms.mc.GetRegionName.1
    let selfService := ms.mc.GetSelfService.1
    let services := ms.mc.GetServices.1
    let networksMap := getNetworksMapFromNetworksArray ms.mc.GetNetworks.1
    match GoMap.get? networksMap selfContainer.NetworkUUID with
    | none => (ms, some "couldn't find self network in metadata")
    | some selfNetwork =>
      let info : InfoFromMetadata :=
        { region := region
          selfContainer := selfContainer
          selfHost := selfHost
          selfService := selfService
          selfNetwork := selfNetwork
          selfNetworkSubnetPrefix := getSubnetPrefixFromNetworkConfig selfNetwork
          services := services
          servicesMapByName := getServicesMapByName services selfService
          hosts := ms.mc.GetHosts.1
          containers := ms.mc.GetContainers.1
          networksMap := networksMap }
      let ms1 := { ms with localSubnet := (GetBridgeInfo selfNetwork selfHost).2 }
      (doInternalRefresh { ms1 with info := some info } info, none)

/-! ## `backend/ipsec/templates.go` -/

/-- The bytes of a text of ASCII characters. -/
def bytesOf (s : String) : List Nat := s.data.map Char.toNat

/-- The constant `ikeConfName`. -/
def ikeConfName : String := "ike.conf"

/-- The constant `childSaConfName`. -/
def childSaConfName : String := "childsa.conf"

/-- The variable `defaultIkeConf`. -/
def defaultIkeConf : List Nat :=
  bytesOf ("\x7b\n" ++
    "\t\t\"version\" : \"2\",\n" ++
    "\t\t\"local_addrs\": [],\n" ++
    "\t\t\"proposals\": [\"aes128gcm16-sha256-modp2048\", \"aes-sha1-modp2048\"],\n" ++
    "\t\t\"encap\": \"yes\",\n" ++
    "\t\t\"dpd_delay\": \"10s\",\n" ++
    "\t\t\"keyingtries\": \"0\",\n" ++
    "\t\t\"local\": \x7b\n" ++
    "\t\t\t\"auth\": \"psk\"\n" ++
    "\t\t\x7d,\n" ++
    "\t\t\"remote\": \x7b\n" ++
    "\t\t\t\"auth\": \"psk\"\n" ++
    "\t\t\x7d\n" ++
    "\t\x7d")

/-- The variable `defaultChildSaConf`. -/
def defaultChildSaConf : List Nat :=
  bytesOf ("\x7b\n" ++
    "\t\t\"local_ts\": [\"0.0.0.0/0\"],\n" ++
    "\t\t\"remote_ts\": [\"0.0.0.0/0\"],\n" ++
    "\t\t\"esp_proposals\":  [\"aes128gcm16-modp2048\", \"aes-modp2048\"],\n" ++
    "\t\t\"start_action\": \"start\",\n" ++
    "\t\t\"close_action\": \"start\",\n" ++
    "\t\t\"dpd_action\": \"restart\",\n" ++
    "\t\t\"mode\": \"tunnel\",\n" ++
    "\t\t\"policies\": \"no\"\n" ++
    "\t\x7d")

/-- Modelled from the spec: the error of `ioutil.ReadFile`, as far as
`loadBytes` tells errors apart: none, one for which `os.IsNotExist` holds, or
another one. -/
inductive ReadError where
  | none
  | notExist (msg : String)
  | other (msg : String)
deriving DecidableEq

/-- Modelled from the spec: the file system at the time of one `Reload`: the
answer of `ioutil.ReadFile(path.Join(dir, file))`, bytes and error, for a
directory and a file name. -/
structure ConfigFiles where
  ReadFile : String → String → List Nat × ReadError :=
    fun _ _ => ([], ReadError.notExist "no such file or directory")

/-- Modelled from the spec: the library functions that `templates.go` calls:
`json.Unmarshal` into a fresh `goStrongswanVici.IKEConf` and into a fresh
`goStrongswanVici.ChildSAConf`, each answering the value it leaves in the
target and its error, and the SHA-1 digest of a byte sequence in hexadecimal
(`hex.EncodeToString` of `sha1`). The two configuration types are those of the
library and are left open. -/
structure TemplateLibs (IKEConf ChildSAConf : Type) where
  unmarshalIke : List Nat → IKEConf × Option String
  unmarshalChildSa : List Nat → ChildSAConf × Option String
  sha1Hex : List Nat → String

/-- The type `Templates`. -/
structure Templates where
  ConfigDir : String := ""
  ikeConfTemplate : List Nat := []
  childSaConfTemplate : List Nat := []
  revision : String := ""
deriving DecidableEq

/-- The method `loadBytes`: the default bytes when the file does not exist,
otherwise whatever `ReadFile` answers, bytes and error. -/
def loadBytes (fs : ConfigFiles) (t : Templates) (file : String)
    (defaultBytes : List Nat) : List Nat × Option String :=
  match fs.ReadFile t.ConfigDir file with
  | (_, ReadError.notExist _) => (defaultBytes, none)
  | (bytes, ReadError.none) => (bytes, none)
  | (bytes, ReadError.other msg) => (bytes, some msg)

/-- The method `Templates.Reload`: the state of the templates after the call,
and the error returned. Each document is stored in its field as soon as it is
read, before it is decoded. -/
def Templates.Reload {IKEConf ChildSAConf : Type} (lib : TemplateLibs IKEConf ChildSAConf)
    (fs : ConfigFiles) (t : Templates) : Templates × Option String :=
  let ike := loadBytes fs t ikeConfName defaultIkeConf
  let t1 := { t with ikeConfTemplate := ike.1 }
  match ike.2 with
  | some err => (t1, some err)
  | none =>
  match (lib.unmarshalIke t1.ikeConfTemplate).2 with
  | some err => (t1, some err)
  | none =>
  let child := loadBytes fs t1 childSaConfName defaultChildSaConf
  let t2 := { t1 with childSaConfTemplate := child.1 }
  match child.2 with
  | some err => (t2, some err)
  | none =>
  match (lib.unmarshalChildSa t2.childSaConfTemplate).2 with
  | some err => (t2, some err)
  | none =>
    ({ t2 with revision := lib.sha1Hex (t2.ikeConfTemplate ++ t2.childSaConfTemplate) }, none)

/-- The method `Revision`. -/
def Templates.Revision (t : Templates) : String := t.revision

/-- The method `NewIkeConf`: the value decoded from the cached bytes, the
error of the decoding being dropped. -/
def Templates.NewIkeConf {IKEConf ChildSAConf : Type}
    (lib : TemplateLibs IKEConf ChildSAConf) (t : Templates) : IKEConf :=
  (lib.unmarshalIke t.ikeConfTemplate).1

/-- The method `NewChildSaConf`. -/
def Templates.NewChildSaConf {IKEConf ChildSAConf : Type}
    (lib : TemplateLibs IKEConf ChildSAConf) (t : Templates) : ChildSAConf :=
  (lib.unmarshalChildSa t.childSaConfTemplate).1

/-! ## `monitor/watcher.go` -/

/-- Modelled from the spec: the type `goStrongswanVici.IkeSa`, with the field
the monitor reads. -/
structure IkeSa where
  Remote_host : String := ""
deriving DecidableEq

/-- Modelled from the spec: the answers of the tunnel daemon during one tick
of the monitor: the error of the connection attempt number `i` of the tick
(`NewClientConnFromDefaultSocket`), the answer of `ListSas`, a list of maps
from names to SAs, and the error of `Initiate` for a CHILD_SA name. -/
structure Daemon where
  NewClientConnFromDefaultSocket : Nat → Option String := fun _ => none
  ListSas : List (List (String × IkeSa)) × Option String := ([], none)
  Initiate : String → Option String := fun _ => none

/-- A call to the tunnel daemon: a connection attempt with its success, the
listing of the SAs, the initiation of a CHILD_SA with its failure, and the
closing of a connection. -/
inductive DaemonCall where
  | connect (ok : Bool)
  | listSas
  | initiate (childSA : String) (failed : Bool)
  | close
deriving DecidableEq

/-- The loop of `getClient` with `n` attempts left, attempt number `i` coming
next and `err` the error so far: the calls made and the error returned, none
when a connection is obtained. The pauses between attempts are not modelled. -/
def getClientLoop (d : Daemon) : Nat → Nat → Option String → List DaemonCall × Option String
  | 0, _, err => ([], err)
  | n + 1, i, _ =>
    match d.NewClientConnFromDefaultSocket i with
    | none => ([DaemonCall.connect true], none)
    | some err =>
      let rest := getClientLoop d n (i + 1) (some err)
      (DaemonCall.connect false :: rest.1, rest.2)

/-- The function `getClient`: up to three connection attempts. -/
def getClient (d : Daemon) : List DaemonCall × Option String :=
  getClientLoop d 3 0 none

/-- The function `buildHostsMap`: every host other than the self host, by
its AgentIP, not found yet. -/
def buildHostsMap (hosts : List Host) (selfHost : Host) : List (String × Bool) :=
  hosts.foldl (fun hostsMap aHost =>
    if aHost.UUID == selfHost.UUID then hostsMap
    else GoMap.set hostsMap aHost.AgentIP false) []

/-- The loops of lines 107 to 113: the remote host of every listed SA is
marked as found. -/
def markFound (hostsMap : List (String × Bool)) (sas : List (List (String × IkeSa))) :
    List (String × Bool) :=
  sas.foldl (fun m aSA => aSA.foldl (fun m1 kv => GoMap.set m1 kv.2.Remote_host true) m)
    hostsMap

/-- The loop of lines 115 to 124: an `Initiate` of `child-<host>` for every
host of the map that is not found; an error of `Initiate` is logged and the
loop goes on. -/
def initiateMissing (d : Daemon) (hostsMap : List (String × Bool)) : List DaemonCall :=
  (hostsMap.filter (fun kv => !kv.2)).map (fun kv =>
    let childSA := "child-" ++ kv.1
    DaemonCall.initiate childSA (d.Initiate childSA).isSome)

/-- What one iteration of the loop of `monitorSAs` does to the tunnel daemon:
the calls it makes, in order, and the calls it defers to the return of
`monitorSAs`. -/
structure TickOutcome where
  calls : List DaemonCall := []
  deferred : List DaemonCall := []
deriving DecidableEq

/-- One iteration of the loop of `monitorSAs` (lines 68 to 124), the pause
left out. -/
def monitorTick (mc : MetadataClient) (d : Daemon) : TickOutcome :=
  match mc.GetSelfService.2 with
  | some _ => {}
  | none =>
  if mc.GetSelfService.1.State != "active" then {}
  else
  match mc.GetHosts.2 with
  | some _ => {}
  | none =>
  match mc.GetSelfHost.2 with
  | some _ => {}
  | none =>
    let hostsMap := buildHostsMap mc.GetHosts.1 mc.GetSelfHost.1
    let conn := getClient d
    match conn.2 with
    | some _ => { calls := conn.1 }
    | none =>
      match d.ListSas.2 with
      | some _ => { calls := conn.1 ++ [DaemonCall.listSas], deferred := [DaemonCall.close] }
      | none =>
        { calls := conn.1 ++ [DaemonCall.listSas] ++
            initiateMissing d (markFound hostsMap d.ListSas.1)
          deferred := [DaemonCall.close] }

/-- The state of a run of `monitorSAs`: the calls made to the tunnel daemon
so far, and the stack of deferred calls, which Go runs when the function
returns. -/
structure MonitorState where
  calls : List DaemonCall := []
  deferred : List DaemonCall := []
deriving DecidableEq

/-- The first iterations of the loop of `monitorSAs`, one pair of metadata
and daemon answers for each. The loop has neither `break` nor `return`, so
the function never returns and no deferred call is ever run. -/
def monitorSAs (ticks : List (MetadataClient × Daemon)) : MonitorState :=
  ticks.foldl (fun st tick =>
    let outcome := monitorTick tick.1 tick.2
    { calls := st.calls ++ outcome.calls, deferred := outcome.deferred ++ st.deferred }) {}

/-! ## `arp/arp_proxy.go` -/

/-- Modelled from the spec: the type `arp.Packet` of the ARP library. -/
structure ArpPacket where
  Operation : Nat := 0
  SenderHardwareAddr : List Nat := []
  SenderIP : List Nat := []
  TargetHardwareAddr : List Nat := []
  TargetIP : List Nat := []
deriving DecidableEq

/-- Modelled from the spec: the type `ethernet.Frame`, with the field the
responder reads. -/
structure EthernetFrame where
  Destination : List Nat := []
deriving DecidableEq

/-- Modelled from the spec: the constant `arp.OperationRequest`. -/
def OperationRequest : Nat := 1

/-- Modelled from the spec: the constant `arp.OperationReply`. -/
def OperationReply : Nat := 2

/-- Modelled from the spec: the variable `ethernet.Broadcast`. -/
def ethernetBroadcast : List Nat := [255, 255, 255, 255, 255, 255]

/-- The arguments of one call of `client.Reply`: the request answered, the
hardware address announced and the IP address it is bound to. -/
structure ArpReply where
  request : ArpPacket
  hwAddr : List Nat
  ip : List Nat
deriving DecidableEq

/-- Modelled from the spec: the listening side: the hardware address of the
interface, the text of an IP address (`net.IP.String`) and the error of
`client.Reply`. -/
structure ArpListener where
  HardwareAddr : List Nat := []
  ipString : List Nat → String := fun _ => ""
  Reply : ArpReply → Option String := fun _ => none

/-- The body of the loop of `ListenAndServe` for one frame read (lines 32 to
45): the replies sent and the error that ends the loop, if any. -/
def serveFrame (db : MetadataStore) (l : ArpListener) (arpRequest : ArpPacket)
    (iface : EthernetFrame) : List ArpReply × Option String :=
  if arpRequest.Operation != OperationRequest ||
      (iface.Destination != ethernetBroadcast && iface.Destination != l.HardwareAddr) then
    ([], none)
  else
    let targetIP := l.ipString arpRequest.TargetIP
    if IsRemote db targetIP then
      let reply : ArpReply :=
        { request := arpRequest, hwAddr := l.HardwareAddr, ip := arpRequest.TargetIP }
      ([reply], l.Reply reply)
    else ([], none)

/-- The loop of `ListenAndServe` over the answers of `client.Read`, each a
packet, a frame and an error: the replies sent, and the error returned, none
while the loop is still reading. -/
def ListenAndServe (db : MetadataStore) (l : ArpListener) :
    List ((ArpPacket × EthernetFrame) × Option String) → List ArpReply × Option String
  | [] => ([], none)
  | (_, some err) :: _ => ([], some err)
  | ((arpRequest, iface), none) :: rest =>
    let served := serveFrame db l arpRequest iface
    match served.2 with
    | some err => (served.1, some err)
    | none =>
      let more := ListenAndServe db l rest
      (served.1 ++ more.1, more.2)

/-! ## Notions used to state the properties of a refresh -/

/-- The filters of lines 379 to 390: a candidate container passes when it is
considered running, its network is a peer network, it has a primary address
and no network-from-container reference. -/
def passesFilters (peersNetworks : List (String × Bool)) (c : Container) : Bool :=
  IsContainerConsideredRunning c &&
    !(!GoMap.contains peersNetworks c.NetworkUUID || c.PrimaryIp == "" ||
      c.NetworkFromContainerUUID != "")

/-- The bare IP under which a container is classified (`ipNoCidr`). -/
def bareIP (info : InfoFromMetadata) (c : Container) : String :=
  splitFirst (getEntryFromContainer info c).IPAddress

/-- The Entry that the loop retains for a container: the one built by
`getEntryFromContainer`, marked as a peer when its bare IP is a key of the
peers map. -/
def retainedEntry (info : InfoFromMetadata) (peersMap : List (String × Entry))
    (c : Container) : Entry :=
  if GoMap.contains peersMap (bareIP info c) then
    { getEntryFromContainer info c with Peer := true }
  else getEntryFromContainer info c

/-- The first container of a list that passes the filters and has the bare
IP `k`. -/
def firstFor (info : InfoFromMetadata) (peersNetworks : List (String × Bool))
    (k : String) (cs : List Container) : Option Container :=
  cs.find? (fun c => passesFilters peersNetworks c && bareIP info c == k)

/-- What the loop has computed after the containers `cs`. -/
structure ClassInv (info : InfoFromMetadata) (selfEntry : Entry)
    (pn : List (String × Bool)) (pm : List (String × Entry))
    (cs : List Container) (st : Classification) : Prop where
  seen_eq : ∀ k, GoMap.getD st.seen k false = (firstFor info pn k cs).isSome
  local_eq : ∀ k, GoMap.get? st.localMap k =
    (firstFor info pn k cs).bind (fun c =>
      if (retainedEntry info pm c).HostIPAddress = selfEntry.HostIPAddress then
        some (retainedEntry info pm c) else none)
  remote_eq : ∀ k, GoMap.get? st.remote k =
    (firstFor info pn k cs).bind (fun c =>
      if (retainedEntry info pm c).HostIPAddress = selfEntry.HostIPAddress then
        none else some (retainedEntry info pm c))
  nonPeers_eq : ∀ k, GoMap.get? st.remoteNonPeersMap k =
    (firstFor info pn k cs).bind (fun c =>
      if (retainedEntry info pm c).HostIPAddress = selfEntry.HostIPAddress then none
      else if (retainedEntry info pm c).Peer = false then
        some (retainedEntry info pm c) else none)
  entries_mem : ∀ e, e ∈ st.entries ↔
    ∃ c, firstFor info pn (splitFirst e.IPAddress) cs = some c ∧ e = retainedEntry info pm c
  entries_nodup : (st.entries.map (fun e => splitFirst e.IPAddress)).Nodup

/-- The locals of the classification loop at the end of `doInternalRefresh`. -/
def refreshClassification (ms : MetadataStore) (info : InfoFromMetadata) : Classification :=
  classify (refreshedInfo ms.mc info)
    (getEntryFromContainer (refreshedInfo ms.mc info) (refreshedInfo ms.mc info).selfContainer)
    (gatherCandidates ms.mc info).peersNetworks
    (buildPeersMap (refreshedInfo ms.mc info) (peerContainers ms.mc info))
    (gatherCandidates ms.mc info).allContainers

/-- The information that `Reload` stores in `ms.info` when every fetch
succeeds. -/
def reloadInfo (mc : MetadataClient) : InfoFromMetadata :=
  let networksMap := getNetworksMapFromNetworksArray mc.GetNetworks.1
  let selfNetwork : Network := GoMap.getD networksMap mc.GetSelfContainer.1.NetworkUUID {}
  { region := mc.GetRegionName.1
    selfContainer := mc.GetSelfContainer.1
    selfHost := mc.GetSelfHost.1
    selfService := mc.GetSelfService.1
    selfNetwork := selfNetwork
    selfNetworkSubnetPrefix := getSubnetPrefixFromNetworkConfig selfNetwork
    services := mc.GetServices.1
    servicesMapByName := getServicesMapByName mc.GetServices.1 mc.GetSelfService.1
    hosts := mc.GetHosts.1
    containers := mc.GetContainers.1
    networksMap := networksMap }

/-- The metadata answers with no region configured: the region name is
empty, every other answer is kept. -/
def withoutRegion (mc : MetadataClient) : MetadataClient :=
  { mc with GetRegionName := ("", none) }

/-! ## A concrete snapshot

Three hosts, one managed network, and the containers of an `ipsec` service
and a `web` service.  The agent runs on `hostA`. -/

/-- The host of the agent. -/
def hostA : Host := { UUID := "host-a", AgentIP := "172.16.0.1" }

/-- A second host. -/
def hostB : Host := { UUID := "host-b", AgentIP := "172.16.0.2" }

/-- A third host. -/
def hostC : Host := { UUID := "host-c", AgentIP := "172.16.0.3" }

/-- The CNI configuration file of the managed network. -/
def cniFile : JVal :=
  JVal.obj (JObj.cons "type" (JVal.str "rancher-bridge")
    (JObj.cons "bridge" (JVal.str "docker0")
    (JObj.cons "bridgeSubnet" (JVal.str "10.42.0.0/16")
    (JObj.cons "ipam"
      (JVal.obj (JObj.cons "subnetPrefixSize" (JVal.str "/16") JObj.nil)) JObj.nil))))

/-- The managed network. -/
def netIpsec : Network :=
  { UUID := "net-1", Name := "ipsec"
    Metadata := JObj.cons "cniConfig"
      (JVal.obj (JObj.cons "10-rancher.conf" cniFile JObj.nil)) JObj.nil }

/-- The container of the agent. -/
def cSelf : Container :=
  { PrimaryIp := "10.42.0.1", HostUUID := "host-a", NetworkUUID := "net-1",
    State := "running", ServiceName := "ipsec" }

/-- A container of the same service whose network is taken from another
container. -/
def cSidekick : Container :=
  { PrimaryIp := "10.42.0.9", HostUUID := "host-a", NetworkUUID := "net-1",
    NetworkFromContainerUUID := "c-holder", State := "running", ServiceName := "ipsec" }

/-- A container on the second host. -/
def cWebB : Container :=
  { PrimaryIp := "10.42.0.5", HostUUID := "host-b", NetworkUUID := "net-1",
    State := "running", ServiceName := "web" }

/-- A container on the agent's host with the address of `cWebB`. -/
def cWebA : Container :=
  { PrimaryIp := "10.42.0.5", HostUUID := "host-a", NetworkUUID := "net-1",
    State := "running", ServiceName := "web" }

/-- A container on the third host. -/
def cWebC : Container :=
  { PrimaryIp := "10.42.0.7", HostUUID := "host-c", NetworkUUID := "net-1",
    State := "running", ServiceName := "web" }

/-- The service of the agent. -/
def svcIpsec : Service :=
  { UUID := "svc-ipsec", Name := "ipsec", StackName := "infra", System := true,
    State := "active", Containers := [cSelf, cSidekick] }

/-- The metadata answers of the concrete snapshot. -/
def demoClient : MetadataClient :=
  { GetSelfContainer := (cSelf, none)
    GetSelfHost := (hostA, none)
    GetHosts := ([hostA, hostB, hostC], none)
    GetContainers := ([cSelf, cSidekick, cWebB, cWebC, cWebA], none)
    GetSelfService := (svcIpsec, none)
    GetServices := ([svcIpsec], none)
    GetNetworks := ([netIpsec], none) }

/-- A store that has never been loaded, on the concrete snapshot. -/
def demoStore : MetadataStore := { mc := demoClient }

/-- The value that `Reload` gives to `ms.info` on the concrete snapshot. -/
def demoInfo : InfoFromMetadata :=
  { selfContainer := cSelf
    selfHost := hostA
    selfService := svcIpsec
    selfNetwork := netIpsec
    selfNetworkSubnetPrefix := "/16"
    services := [svcIpsec]
    servicesMapByName := []
    hosts := [hostA, hostB, hostC]
    containers := [cSelf, cSidekick, cWebB, cWebC, cWebA]
    networksMap := [("net-1", netIpsec)] }

/-! ### Two linked services with one address

The self service links to the services `alpha` and `beta`; each has one
running container, on different hosts, and both containers carry the address
10.42.0.5. -/

/-- The container of `alpha`, on the second host. -/
def cAlpha : Container :=
  { PrimaryIp := "10.42.0.5", HostUUID := "host-b", NetworkUUID := "net-1",
    State := "running", ServiceName := "alpha" }

/-- The container of `beta`, on the third host. -/
def cBeta : Container :=
  { PrimaryIp := "10.42.0.5", HostUUID := "host-c", NetworkUUID := "net-1",
    State := "running", ServiceName := "beta" }

/-- The service `alpha`. -/
def svcAlpha : Service :=
  { UUID := "svc-alpha", Name := "alpha", StackName := "infra", System := true,
    State := "active", Containers := [cAlpha] }

/-- The service `beta`. -/
def svcBeta : Service :=
  { UUID := "svc-beta", Name := "beta", StackName := "infra", System := true,
    State := "active", Containers := [cBeta] }

/-- The link map of the self service, `alpha` visited first. -/
def linksAlphaFirst : List (String × String) :=
  [("infra/alpha", "alpha"), ("infra/beta", "beta")]

/-- The same link map, `beta` visited first. -/
def linksBetaFirst : List (String × String) :=
  [("infra/beta", "beta"), ("infra/alpha", "alpha")]

/-- The metadata answers with the two linked services, the link map of the
self service being visited in the order of `links`. -/
def linkedClient (links : List (String × String)) : MetadataClient :=
  { demoClient with
    GetContainers := ([cSelf, cAlpha, cBeta], none)
    GetSelfService := ({ svcIpsec with Links := links, Containers := [cSelf] }, none)
    GetServices :=
      ([{ svcIpsec with Links := links, Containers := [cSelf] }, svcAlpha, svcBeta], none) }

/-! ### A region whose environments cannot be fetched -/

/-- The metadata answers of a later moment: a region is configured, the
container `cWebC` is gone, and the environments of the region cannot be
fetched. -/
def regionDownClient : MetadataClient :=
  { demoClient with
    GetRegionName := ("region-1", none)
    GetContainers := ([cSelf, cSidekick, cWebB, cWebA], none)
    GetEnvironments := ([], some "Get /environments: connection refused") }

/-- The store loaded from the concrete snapshot, now facing the later
answers. -/
def staleStore : MetadataStore :=
  { (Reload demoStore).1 with mc := regionDownClient }

/-! ### An agent whose own address is not classified -/

/-- The container of the agent when it takes its network from a holder
container. -/
def cRouter : Container :=
  { PrimaryIp := "10.42.0.1", HostUUID := "host-a", NetworkUUID := "net-1",
    NetworkFromContainerUUID := "c-holder", State := "running", ServiceName := "ipsec" }

/-- The holder container of the agent, stopped. -/
def cHolderStopped : Container :=
  { PrimaryIp := "10.42.0.1", HostUUID := "host-a", NetworkUUID := "net-1",
    State := "stopped", ServiceName := "ipsec" }

/-- The metadata answers in which the only containers with the agent's
address are the agent itself, which has a network-from-container reference,
and its stopped holder. -/
def routerClient : MetadataClient :=
  { demoClient with
    GetSelfContainer := (cRouter, none)
    GetContainers := ([cHolderStopped, cRouter, cWebB, cWebC], none)
    GetSelfService := ({ svcIpsec with Containers := [cHolderStopped, cRouter] }, none)
    GetServices := ([{ svcIpsec with Containers := [cHolderStopped, cRouter] }], none) }

/-! ### A fetch that fails -/

/-- The metadata answers of the concrete snapshot, the list of containers
failing. -/
def containersDownClient : MetadataClient :=
  { demoClient with GetContainers := ([], some "Get /containers: connection refused") }

/-! ## Notions and snapshots for the candidates, the regions and the links -/

/-- The containers that a configured region adds to the candidates: the peer
containers and then the non-peer containers of `getRegionsInfo`; none when no
region is configured or when the environments cannot be fetched. -/
def regionCandidates (mc : MetadataClient) (info : InfoFromMetadata) : List Container :=
  if info.region != "" then
    match getRegionsInfo mc info with
    | Except.error _ => []
    | Except.ok regionsInfo => regionsInfo.peersContainers ++ regionsInfo.nonPeersContainers
  else []

/-- The managed network of a linked environment. -/
def netRegion : Network := { UUID := "net-r1", Name := "ipsec" }

/-- A container of the linked environment that is being stopped. -/
def cStopping : Container :=
  { PrimaryIp := "10.42.9.9", HostUUID := "host-r1", NetworkUUID := "net-r1",
    State := "stopping", ServiceName := "web" }

/-- The same container while it runs. -/
def cStoppingBefore : Container := { cStopping with State := "running" }

/-- The metadata answers of the concrete snapshot with a region whose one
linked environment holds the containers `cs`. -/
def regionClient (cs : List Container) : MetadataClient :=
  { demoClient with
    GetRegionName := ("region-1", none)
    GetEnvironments :=
      ([{ Hosts := [{ UUID := "host-r1", AgentIP := "172.16.9.1" }]
          Networks := [netRegion]
          Containers := cs }], none) }

/-- A service of a user stack, not a system service. -/
def svcUserWeb : Service :=
  { UUID := "svc-web", Name := "web", StackName := "apps", System := false,
    State := "active", Containers := [cWebB] }

/-- The self service with one link, to `target`. -/
def svcIpsecLinkedTo (target : String) : Service :=
  { svcIpsec with Links := [(target, "peer")], Containers := [cSelf] }

/-- The metadata answers in which the self service links to the user service
`apps/web`, whose running container `cWebB` is on the self network. -/
def userLinkClient : MetadataClient :=
  { demoClient with
    GetContainers := ([cSelf, cWebB], none)
    GetSelfService := (svcIpsecLinkedTo "apps/web", none)
    GetServices := ([svcIpsecLinkedTo "apps/web", svcUserWeb], none) }

/-- A running container of a local system service on the managed network of
the linked environment. -/
def cGamma : Container :=
  { PrimaryIp := "10.42.9.20", HostUUID := "host-b", NetworkUUID := "net-r1",
    State := "running", ServiceName := "gamma" }

/-- The system service `infra/gamma`. -/
def svcGamma : Service :=
  { UUID := "svc-gamma", Name := "gamma", StackName := "infra", System := true,
    State := "active", Containers := [cGamma] }

/-- The metadata answers in which the self service links to the system
service `infra/gamma`; the network of its container is a peer network through
the region and is not among the networks of the local environment. -/
def regionLinkClient : MetadataClient :=
  { regionClient [] with
    GetContainers := ([cSelf, cGamma], none)
    GetSelfService := (svcIpsecLinkedTo "infra/gamma", none)
    GetServices := ([svcIpsecLinkedTo "infra/gamma", svcGamma], none) }

/-! ## Notions and answers for the monitor -/

/-- The CHILD_SA names of the `Initiate` calls of a list of calls, in
order. -/
def initiatedNames (calls : List DaemonCall) : List String :=
  calls.filterMap (fun call =>
    match call with
    | DaemonCall.initiate childSA _ => some childSA
    | _ => none)

/-- A fourth host. -/
def hostD : Host := { UUID := "host-d", AgentIP := "172.16.0.4" }

/-- The metadata answers of the concrete snapshot with four hosts. -/
def monitorClient : MetadataClient :=
  { demoClient with GetHosts := ([hostA, hostB, hostC, hostD], none) }

/-- A tunnel daemon that accepts connections and lists an SA to the second
and one to the third host. -/
def daemonTwoSas : Daemon :=
  { ListSas :=
      ([[("conn-b", { Remote_host := "172.16.0.2" })],
        [("conn-c", { Remote_host := "172.16.0.3" })]], none) }

/-- The metadata answers while the self service is being upgraded. -/
def upgradingClient : MetadataClient :=
  { monitorClient with GetSelfService := ({ svcIpsec with State := "upgrading" }, none) }

/-! ## A listening interface and a request for the ARP responder -/

/-- The text of an IPv4 address of four bytes, in dotted decimal, as
`net.IP.String` writes it; the empty text for any other length, which the
examples do not use. -/
def dottedDecimal (ip : List Nat) : String :=
  match ip with
  | [a, b, c, d] => toString a ++ "." ++ toString b ++ "." ++ toString c ++ "." ++ toString d
  | _ => ""

/-- The listening interface of the examples. -/
def demoListener : ArpListener :=
  { HardwareAddr := [2, 66, 10, 42, 0, 1], ipString := dottedDecimal }

/-- A request for the remote address 10.42.0.5, sent to the broadcast
address. -/
def requestForRemote : ArpPacket :=
  { Operation := OperationRequest
    SenderHardwareAddr := [2, 66, 10, 42, 0, 33], SenderIP := [10, 42, 0, 33]
    TargetIP := [10, 42, 0, 5] }

/-! ## Library answers and configuration directories for the templates -/

/-- The answers of `json.Unmarshal` on the documents of the examples, the
decoded configuration being written as a text: the built-in default decodes;
an empty JSON object, alone or with a blank before or after it, decodes to
the zero configuration; a lone opening brace is malformed and leaves the zero
configuration in the target. Any other document is answered like the
malformed one; the examples use none. -/
def exampleUnmarshal (defaultDoc : List Nat) (doc : List Nat) : String × Option String :=
  if doc = defaultDoc then ("defaults", none)
  else if doc = bytesOf "\x7b\x7d" ∨ doc = bytesOf " \x7b\x7d" ∨ doc = bytesOf "\x7b\x7d " then
    ("", none)
  else ("", some "unexpected end of JSON input")

/-- The library functions of the examples, for a digest function `digest`. -/
def exampleLibs (digest : List Nat → String) : TemplateLibs String String :=
  { unmarshalIke := exampleUnmarshal defaultIkeConf
    unmarshalChildSa := exampleUnmarshal defaultChildSaConf
    sha1Hex := digest }

/-- A digest function for the examples that tells apart the byte sequences
they use: the text whose characters have the bytes as codes. -/
def plainDigest (bytes : List Nat) : String := String.mk (bytes.map Char.ofNat)

/-- A configuration directory in which `ike.conf` holds `ike` and
`childsa.conf` holds `child`; a document that is `none` does not exist. -/
def configDir (ike child : Option (List Nat)) : ConfigFiles :=
  { ReadFile := fun _ file =>
      let doc := if file = ikeConfName then ike else if file = childSaConfName then child
        else none
      match doc with
      | some bytes => (bytes, ReadError.none)
      | none => ([], ReadError.notExist "no such file or directory") }

/-- The templates after a first, successful `Reload` on a directory without
files: the built-in defaults. -/
def loadedDefaults : Templates :=
  (Templates.Reload (exampleLibs plainDigest) (configDir none none) { ConfigDir := "." }).1

/-! ## A peer container that shares the address of its holder -/

/-- The holder container of the agent, running. -/
def cHolder : Container := { cHolderStopped with State := "running" }

/-- The metadata answers in which the agent takes its network from its
running holder and shares the holder's address 10.42.0.1. -/
def sharedAddressClient : MetadataClient :=
  { demoClient with
    GetSelfContainer := (cRouter, none)
    GetContainers := ([cHolder, cRouter, cWebB, cWebC], none)
    GetSelfService := ({ svcIpsec with Containers := [cHolder, cRouter] }, none)
    GetServices := ([{ svcIpsec with Containers := [cHolder, cRouter] }], none) }

/-! ## Lemmas on maps and on the classification loop -/

theorem GoMap.get?_set {α : Type} (m : List (String × α)) (k k' : String) (v : α) :
    GoMap.get? (GoMap.set m k v) k' = if k = k' then some v else GoMap.get? m k' := by
  induction m with
  | nil => simp [GoMap.set, GoMap.get?]
  | cons p m ih =>
    obtain ⟨a, b⟩ := p
    by_cases h : a = k
    · subst h
      by_cases h3 : a = k' <;> simp [GoMap.set, GoMap.get?, h3]
    · by_cases h2 : a = k'
      · subst h2
        have : ¬ k = a := fun e => h e.symm
        simp [GoMap.set, GoMap.get?, h, this]
      · simp [GoMap.set, GoMap.get?, h, h2, ih]

theorem GoMap.mem_keys_iff {α : Type} (m : List (String × α)) (k : String) :
    k ∈ GoMap.keys m ↔ ∃ v, GoMap.get? m k = some v := by
  induction m with
  | nil => simp [GoMap.keys, GoMap.get?]
  | cons p m ih =>
    obtain ⟨a, b⟩ := p
    by_cases h : a = k
    · subst h; simp [GoMap.keys, GoMap.get?]
    · have h' : ¬ k = a := fun e => h e.symm
      simp only [GoMap.keys] at ih
      simp [GoMap.keys, GoMap.get?, h, h', ih]

theorem retainedEntry_IPAddress (info : InfoFromMetadata) (pm : List (String × Entry))
    (c : Container) :
    (retainedEntry info pm c).IPAddress = (getEntryFromContainer info c).IPAddress := by
  unfold retainedEntry; split <;> rfl

theorem retainedEntry_HostIPAddress (info : InfoFromMetadata) (pm : List (String × Entry))
    (c : Container) :
    (retainedEntry info pm c).HostIPAddress =
      (GoMap.getD info.hostsMap c.HostUUID {}).AgentIP := by
  unfold retainedEntry; split <;> rfl

theorem retainedEntry_Self (info : InfoFromMetadata) (pm : List (String × Entry))
    (c : Container) :
    (retainedEntry info pm c).Self = (c.PrimaryIp == info.selfContainer.PrimaryIp) := by
  unfold retainedEntry; split <;> rfl

theorem retainedEntry_Peer (info : InfoFromMetadata) (pm : List (String × Entry))
    (c : Container) :
    (retainedEntry info pm c).Peer = GoMap.contains pm (bareIP info c) := by
  unfold retainedEntry; split
  · simp_all
  · simp_all [getEntryFromContainer]

theorem splitFirst_retainedEntry (info : InfoFromMetadata) (pm : List (String × Entry))
    (c : Container) :
    splitFirst (retainedEntry info pm c).IPAddress = bareIP info c := by
  rw [retainedEntry_IPAddress]; rfl

/-- The loop body in terms of the filters and the retained Entry. -/
theorem classifyStep_eq (info : InfoFromMetadata) (selfEntry : Entry)
    (pn : List (String × Bool)) (pm : List (String × Entry))
    (st : Classification) (c : Container) :
    classifyStep info selfEntry pn pm st c =
      if passesFilters pn c = true ∧ GoMap.getD st.seen (bareIP info c) false = false then
        if (retainedEntry info pm c).HostIPAddress = selfEntry.HostIPAddress then
          { st with
            seen := GoMap.set st.seen (bareIP info c) true
            localMap := GoMap.set st.localMap (bareIP info c) (retainedEntry info pm c)
            entries := st.entries ++ [retainedEntry info pm c] }
        else
          { st with
            seen := GoMap.set st.seen (bareIP info c) true
            remote := GoMap.set st.remote (bareIP info c) (retainedEntry info pm c)
            remoteNonPeersMap :=
              if (retainedEntry info pm c).Peer = false then
                GoMap.set st.remoteNonPeersMap (bareIP info c) (retainedEntry info pm c)
              else st.remoteNonPeersMap
            entries := st.entries ++ [retainedEntry info pm c] }
      else st := by
  unfold classifyStep passesFilters
  by_cases hr : IsContainerConsideredRunning c = true
  · by_cases hf : (!GoMap.contains pn c.NetworkUUID || c.PrimaryIp == "" ||
        c.NetworkFromContainerUUID != "") = true
    · simp [hr, hf]
    · by_cases hs : GoMap.getD st.seen (bareIP info c) false = true
      · have hs' : GoMap.getD st.seen (splitFirst (getEntryFromContainer info c).IPAddress) false = true := hs
        simp [hr, hf, hs, hs']
      · have hs' : ¬ GoMap.getD st.seen (splitFirst (getEntryFromContainer info c).IPAddress) false = true := hs
        simp only [hr, hf, hs, hs']
        simp [bareIP, retainedEntry]
  · simp [hr]

theorem firstFor_append_single (info : InfoFromMetadata) (pn : List (String × Bool))
    (k : String) (pre : List Container) (c : Container) :
    firstFor info pn k (pre ++ [c]) =
      (firstFor info pn k pre).or
        (if passesFilters pn c = true ∧ bareIP info c = k then some c else none) := by
  unfold firstFor
  rw [List.find?_append]
  congr 1
  by_cases h : passesFilters pn c = true ∧ bareIP info c = k
  · simp [List.find?_cons, h]
  · rw [if_neg h]
    have : (passesFilters pn c && bareIP info c == k) = false := by
      cases hpf : passesFilters pn c
      · rfl
      · have hne : ¬ bareIP info c = k := fun e => h ⟨hpf, e⟩
        simpa using hne
    simp [List.find?_cons, this]

theorem ClassInv.nil (info : InfoFromMetadata) (selfEntry : Entry)
    (pn : List (String × Bool)) (pm : List (String × Entry)) :
    ClassInv info selfEntry pn pm [] {} := by
  constructor <;> simp [firstFor, GoMap.getD, GoMap.get?]

theorem ClassInv.congr {info : InfoFromMetadata} {selfEntry : Entry}
    {pn : List (String × Bool)} {pm : List (String × Entry)}
    {cs cs' : List Container} {st : Classification}
    (h : ClassInv info selfEntry pn pm cs st)
    (hfst : ∀ k, firstFor info pn k cs' = firstFor info pn k cs) :
    ClassInv info selfEntry pn pm cs' st := by
  constructor
  · intro k; rw [hfst]; exact h.seen_eq k
  · intro k; rw [hfst]; exact h.local_eq k
  · intro k; rw [hfst]; exact h.remote_eq k
  · intro k; rw [hfst]; exact h.nonPeers_eq k
  · intro e; rw [hfst]; exact h.entries_mem e
  · exact h.entries_nodup

theorem GoMap.getD_set {α : Type} (m : List (String × α)) (k k' : String) (v z : α) :
    GoMap.getD (GoMap.set m k v) k' z = if k = k' then v else GoMap.getD m k' z := by
  unfold GoMap.getD
  rw [GoMap.get?_set]
  split <;> rfl

theorem ClassInv.step {info : InfoFromMetadata} {selfEntry : Entry}
    {pn : List (String × Bool)} {pm : List (String × Entry)}
    {pre : List Container} {st : Classification}
    (h : ClassInv info selfEntry pn pm pre st) (c : Container) :
    ClassInv info selfEntry pn pm (pre ++ [c]) (classifyStep info selfEntry pn pm st c) := by
  rw [classifyStep_eq]
  by_cases hp : passesFilters pn c = true
  · by_cases hs : GoMap.getD st.seen (bareIP info c) false = false
    · -- a new bare IP
      have hnone : firstFor info pn (bareIP info c) pre = none := by
        have := h.seen_eq (bareIP info c)
        rw [hs] at this
        cases hf : firstFor info pn (bareIP info c) pre
        · rfl
        · rw [hf] at this; simp at this
      have hfst : ∀ k, firstFor info pn k (pre ++ [c]) =
          if bareIP info c = k then some c else firstFor info pn k pre := by
        intro k
        rw [firstFor_append_single]
        by_cases hk : bareIP info c = k
        · subst hk; simp [hnone, hp]
        · simp [hk]
      have hnotin : bareIP info c ∉ st.entries.map (fun e => splitFirst e.IPAddress) := by
        intro hin
        obtain ⟨e, he, hek⟩ := List.mem_map.1 hin
        obtain ⟨c', hc', -⟩ := (h.entries_mem e).1 he
        rw [hek, hnone] at hc'
        exact Option.noConfusion hc'
      have hmem : ∀ e, e ∈ st.entries ++ [retainedEntry info pm c] ↔
          ∃ c', firstFor info pn (splitFirst e.IPAddress) (pre ++ [c]) = some c' ∧
            e = retainedEntry info pm c' := by
        intro e
        rw [List.mem_append, List.mem_singleton, hfst, h.entries_mem e]
        by_cases hk : bareIP info c = splitFirst e.IPAddress
        · rw [if_pos hk, ← hk, hnone]
          constructor
          · rintro (⟨c', hc', -⟩ | he)
            · exact Option.noConfusion hc'
            · exact ⟨c, rfl, he⟩
          · rintro ⟨c', hc', he⟩
            cases hc'
            exact Or.inr he
        · rw [if_neg hk]
          constructor
          · rintro (hx | he)
            · exact hx
            · exact absurd (by rw [he, splitFirst_retainedEntry]) hk
          · intro hx
            exact Or.inl hx
      have hnd : ((st.entries ++ [retainedEntry info pm c]).map
          (fun e => splitFirst e.IPAddress)).Nodup := by
        rw [List.map_append, List.nodup_append]
        refine ⟨h.entries_nodup, by simp, ?_⟩
        intro x hx hx'
        simp only [List.map_cons, List.map_nil, List.mem_singleton] at hx'
        rw [hx', splitFirst_retainedEntry] at hx
        exact hnotin hx
      rw [if_pos ⟨hp, hs⟩]
      by_cases hh : (retainedEntry info pm c).HostIPAddress = selfEntry.HostIPAddress
      · rw [if_pos hh]
        constructor
        · intro k
          simp only [GoMap.getD_set, hfst]
          by_cases hk : bareIP info c = k
          · simp [hk]
          · simp [hk, h.seen_eq k]
        · intro k
          simp only [GoMap.get?_set, hfst]
          by_cases hk : bareIP info c = k
          · simp [hk, hh]
          · simp [hk, h.local_eq k]
        · intro k
          simp only [hfst]
          by_cases hk : bareIP info c = k
          · subst hk
            simp [hh, h.remote_eq, hnone]
          · simp [hk, h.remote_eq k]
        · intro k
          simp only [hfst]
          by_cases hk : bareIP info c = k
          · subst hk
            simp [hh, h.nonPeers_eq, hnone]
          · simp [hk, h.nonPeers_eq k]
        · exact hmem
        · exact hnd
      · rw [if_neg hh]
        constructor
        · intro k
          simp only [GoMap.getD_set, hfst]
          by_cases hk : bareIP info c = k
          · simp [hk]
          · simp [hk, h.seen_eq k]
        · intro k
          simp only [hfst]
          by_cases hk : bareIP info c = k
          · subst hk
            simp [hh, h.local_eq, hnone]
          · simp [hk, h.local_eq k]
        · intro k
          simp only [GoMap.get?_set, hfst]
          by_cases hk : bareIP info c = k
          · simp [hk, hh]
          · simp [hk, h.remote_eq k]
        · intro k
          simp only [hfst]
          by_cases hk : bareIP info c = k
          · subst hk
            by_cases hpeer : (retainedEntry info pm c).Peer = false
            · simp [hh, hpeer, GoMap.get?_set]
            · simp [hh, hpeer, h.nonPeers_eq, hnone]
          · by_cases hpeer : (retainedEntry info pm c).Peer = false
            · simp [hk, hpeer, GoMap.get?_set, h.nonPeers_eq k]
            · simp [hk, hpeer, h.nonPeers_eq k]
        · exact hmem
        · exact hnd
    · -- seen before
      rw [if_neg (fun hc => hs hc.2)]
      refine h.congr ?_
      intro k
      rw [firstFor_append_single]
      by_cases hk : bareIP info c = k
      · subst hk
        have := h.seen_eq (bareIP info c)
        cases hf : firstFor info pn (bareIP info c) pre
        · rw [hf] at this
          simp at this
          exact absurd this hs
        · simp
      · simp [hk]
  · -- filtered out
    rw [if_neg (fun hc => hp hc.1)]
    refine h.congr ?_
    intro k
    rw [firstFor_append_single]
    simp [hp]

theorem classify_inv (info : InfoFromMetadata) (selfEntry : Entry)
    (pn : List (String × Bool)) (pm : List (String × Entry)) (cs : List Container) :
    ClassInv info selfEntry pn pm cs (classify info selfEntry pn pm cs) := by
  induction cs using List.reverseRecOn with
  | nil => exact ClassInv.nil info selfEntry pn pm
  | append_singleton l c ih =>
    unfold classify at *
    rw [List.foldl_append]
    exact ih.step c

theorem refresh_inv (ms : MetadataStore) (info : InfoFromMetadata) :
    ClassInv (refreshedInfo ms.mc info) (doInternalRefresh ms info).self
      (gatherCandidates ms.mc info).peersNetworks (doInternalRefresh ms info).peersMap
      (gatherCandidates ms.mc info).allContainers (refreshClassification ms info) :=
  classify_inv _ _ _ _ _

theorem firstFor_some {info : InfoFromMetadata} {pn : List (String × Bool)} {k : String}
    {cs : List Container} {c : Container} (h : firstFor info pn k cs = some c) :
    c ∈ cs ∧ passesFilters pn c = true ∧ bareIP info c = k := by
  unfold firstFor at h
  have h1 := List.find?_some h
  have h2 := List.mem_of_find?_eq_some h
  simp only [Bool.and_eq_true, beq_iff_eq] at h1
  exact ⟨h2, h1.1, h1.2⟩

theorem firstFor_isSome_iff (info : InfoFromMetadata) (pn : List (String × Bool)) (k : String)
    (cs : List Container) :
    (∃ c, firstFor info pn k cs = some c) ↔
      ∃ c ∈ cs, passesFilters pn c = true ∧ bareIP info c = k := by
  constructor
  · rintro ⟨c, hc⟩
    exact ⟨c, firstFor_some hc⟩
  · rintro ⟨c, hc, hp, hk⟩
    cases hf : firstFor info pn k cs with
    | some c' => exact ⟨c', rfl⟩
    | none =>
      unfold firstFor at hf
      rw [List.find?_eq_none] at hf
      have := hf c hc
      simp [hp, hk] at this

theorem GoMap.not_mem_keys_iff {α : Type} (m : List (String × α)) (k : String) :
    k ∉ GoMap.keys m ↔ GoMap.get? m k = none := by
  rw [GoMap.mem_keys_iff]
  cases GoMap.get? m k <;> simp

theorem GoMap.contains_iff {α : Type} (m : List (String × α)) (k : String) :
    GoMap.contains m k = true ↔ k ∈ GoMap.keys m := by
  rw [GoMap.mem_keys_iff]
  unfold GoMap.contains
  cases GoMap.get? m k <;> simp

theorem refresh_local_some (ms : MetadataStore) (info : InfoFromMetadata) (k : String)
    (e : Entry) :
    GoMap.get? (doInternalRefresh ms info).localMap k = some e ↔
      ∃ c, firstFor (refreshedInfo ms.mc info) (gatherCandidates ms.mc info).peersNetworks k
          (gatherCandidates ms.mc info).allContainers = some c ∧
        e = retainedEntry (refreshedInfo ms.mc info) (doInternalRefresh ms info).peersMap c ∧
        e.HostIPAddress = (doInternalRefresh ms info).self.HostIPAddress := by
  have hl := (refresh_inv ms info).local_eq k
  change GoMap.get? (refreshClassification ms info).localMap k = some e ↔ _
  rw [hl]
  cases hf : firstFor (refreshedInfo ms.mc info) (gatherCandidates ms.mc info).peersNetworks k
      (gatherCandidates ms.mc info).allContainers with
  | none => simp
  | some c =>
    simp only [Option.some_bind, Option.some.injEq, exists_eq_left']
    split
    · rename_i hh
      constructor
      · intro he; cases he; exact ⟨rfl, hh⟩
      · rintro ⟨he, -⟩; rw [he]
    · rename_i hh
      constructor
      · intro he; exact Option.noConfusion he
      · rintro ⟨he, h2⟩; rw [he] at h2; exact absurd h2 hh

theorem refresh_remote_some (ms : MetadataStore) (info : InfoFromMetadata) (k : String)
    (e : Entry) :
    GoMap.get? (doInternalRefresh ms info).remote k = some e ↔
      ∃ c, firstFor (refreshedInfo ms.mc info) (gatherCandidates ms.mc info).peersNetworks k
          (gatherCandidates ms.mc info).allContainers = some c ∧
        e = retainedEntry (refreshedInfo ms.mc info) (doInternalRefresh ms info).peersMap c ∧
        e.HostIPAddress ≠ (doInternalRefresh ms info).self.HostIPAddress := by
  have hl := (refresh_inv ms info).remote_eq k
  change GoMap.get? (refreshClassification ms info).remote k = some e ↔ _
  rw [hl]
  cases hf : firstFor (refreshedInfo ms.mc info) (gatherCandidates ms.mc info).peersNetworks k
      (gatherCandidates ms.mc info).allContainers with
  | none => simp
  | some c =>
    simp only [Option.some_bind, Option.some.injEq, exists_eq_left']
    split
    · rename_i hh
      constructor
      · intro he; exact Option.noConfusion he
      · rintro ⟨he, h2⟩; rw [he] at h2; exact absurd hh h2
    · rename_i hh
      constructor
      · intro he; cases he; exact ⟨rfl, hh⟩
      · rintro ⟨he, -⟩; rw [he]

theorem refresh_nonPeers_some (ms : MetadataStore) (info : InfoFromMetadata) (k : String)
    (e : Entry) :
    GoMap.get? (doInternalRefresh ms info).remoteNonPeersMap k = some e ↔
      ∃ c, firstFor (refreshedInfo ms.mc info) (gatherCandidates ms.mc info).peersNetworks k
          (gatherCandidates ms.mc info).allContainers = some c ∧
        e = retainedEntry (refreshedInfo ms.mc info) (doInternalRefresh ms info).peersMap c ∧
        e.HostIPAddress ≠ (doInternalRefresh ms info).self.HostIPAddress ∧ e.Peer = false := by
  have hl := (refresh_inv ms info).nonPeers_eq k
  change GoMap.get? (refreshClassification ms info).remoteNonPeersMap k = some e ↔ _
  rw [hl]
  cases hf : firstFor (refreshedInfo ms.mc info) (gatherCandidates ms.mc info).peersNetworks k
      (gatherCandidates ms.mc info).allContainers with
  | none => simp
  | some c =>
    simp only [Option.some_bind, Option.some.injEq, exists_eq_left']
    split
    · rename_i hh
      constructor
      · intro he; exact Option.noConfusion he
      · rintro ⟨he, h2, -⟩; rw [he] at h2; exact absurd hh h2
    · rename_i hh
      split
      · rename_i hp
        constructor
        · intro he; cases he; exact ⟨rfl, hh, hp⟩
        · rintro ⟨he, -⟩; rw [he]
      · rename_i hp
        constructor
        · intro he; exact Option.noConfusion he
        · rintro ⟨he, -, h3⟩; rw [he] at h3; exact absurd h3 hp

theorem refresh_entries_mem (ms : MetadataStore) (info : InfoFromMetadata) (e : Entry) :
    e ∈ (doInternalRefresh ms info).entries ↔
      ∃ c, firstFor (refreshedInfo ms.mc info) (gatherCandidates ms.mc info).peersNetworks
          (splitFirst e.IPAddress) (gatherCandidates ms.mc info).allContainers = some c ∧
        e = retainedEntry (refreshedInfo ms.mc info) (doInternalRefresh ms info).peersMap c :=
  (refresh_inv ms info).entries_mem e

theorem refresh_entries_nodup (ms : MetadataStore) (info : InfoFromMetadata) :
    ((doInternalRefresh ms info).entries.map (fun e => splitFirst e.IPAddress)).Nodup :=
  (refresh_inv ms info).entries_nodup


/-- A key of `local` or `remote` is the bare IP of a candidate that passes
the filters, and conversely. -/
theorem classified_iff (ms : MetadataStore) (info : InfoFromMetadata) (k : String) :
    (k ∈ GoMap.keys (doInternalRefresh ms info).localMap ∨
        k ∈ GoMap.keys (doInternalRefresh ms info).remote) ↔
      ∃ c ∈ (gatherCandidates ms.mc info).allContainers,
        passesFilters (gatherCandidates ms.mc info).peersNetworks c = true ∧
          bareIP (refreshedInfo ms.mc info) c = k := by
  rw [← firstFor_isSome_iff]
  constructor
  · rintro (h | h)
    · obtain ⟨e, he⟩ := (GoMap.mem_keys_iff _ _).1 h
      obtain ⟨c, hc, -⟩ := (refresh_local_some ms info k e).1 he
      exact ⟨c, hc⟩
    · obtain ⟨e, he⟩ := (GoMap.mem_keys_iff _ _).1 h
      obtain ⟨c, hc, -⟩ := (refresh_remote_some ms info k e).1 he
      exact ⟨c, hc⟩
  · rintro ⟨c, hc⟩
    by_cases hh : (retainedEntry (refreshedInfo ms.mc info)
        (doInternalRefresh ms info).peersMap c).HostIPAddress =
          (doInternalRefresh ms info).self.HostIPAddress
    · exact Or.inl ((GoMap.mem_keys_iff _ _).2
        ⟨_, (refresh_local_some ms info k _).2 ⟨c, hc, rfl, hh⟩⟩)
    · exact Or.inr ((GoMap.mem_keys_iff _ _).2
        ⟨_, (refresh_remote_some ms info k _).2 ⟨c, hc, rfl, hh⟩⟩)

/-- The keys of the peers map are the bare IPs of the peer containers. -/
theorem mem_keys_buildPeersMap (info : InfoFromMetadata) (cs : List Container) (k : String) :
    k ∈ GoMap.keys (buildPeersMap info cs) ↔ ∃ c ∈ cs, bareIP info c = k := by
  induction cs using List.reverseRecOn with
  | nil => simp [buildPeersMap, GoMap.keys]
  | append_singleton l c ih =>
    have hstep : buildPeersMap info (l ++ [c]) =
        GoMap.set (buildPeersMap info l) (bareIP info c)
          { getEntryFromContainer info c with Peer := true } := by
      unfold buildPeersMap
      rw [List.foldl_append]
      rfl
    rw [hstep, GoMap.mem_keys_iff]
    simp only [GoMap.get?_set]
    by_cases hk : bareIP info c = k
    · simp only [hk, if_true]
      constructor
      · intro _
        exact ⟨c, by simp, hk⟩
      · intro _
        exact ⟨_, rfl⟩
    · simp only [hk, if_false]
      rw [← GoMap.mem_keys_iff, ih]
      constructor
      · rintro ⟨c', hc', hk'⟩
        exact ⟨c', by simp [hc'], hk'⟩
      · rintro ⟨c', hc', hk'⟩
        rw [List.mem_append, List.mem_singleton] at hc'
        rcases hc' with hc' | hc'
        · exact ⟨c', hc', hk'⟩
        · rw [hc'] at hk'; exact absurd hk' hk

theorem filter_key_eq_singleton {α β : Type} [DecidableEq β] (f : α → β) :
    ∀ (l : List α) (a : α), (l.map f).Nodup → a ∈ l →
      l.filter (fun x => f x == f a) = [a]
  | [], a, _, h => by simp at h
  | x :: l, a, hnd, h => by
    rw [List.map_cons, List.nodup_cons] at hnd
    rcases List.mem_cons.1 h with rfl | h'
    · have : l.filter (fun x => f x == f a) = [] := by
        rw [List.filter_eq_nil_iff]
        intro y hy hfy
        have : f y = f a := by simpa using hfy
        exact hnd.1 (this ▸ List.mem_map_of_mem f hy)
      simp [List.filter_cons, this]
    · have hne : ¬ f x = f a := fun e => hnd.1 (e ▸ List.mem_map_of_mem f h')
      have ih := filter_key_eq_singleton f l a hnd.2 h'
      simp [List.filter_cons, hne, ih]

theorem retainedEntry_eq (info : InfoFromMetadata) (pm : List (String × Entry))
    (c : Container) :
    retainedEntry info pm c =
      { getEntryFromContainer info c with Peer := GoMap.contains pm (bareIP info c) } := by
  unfold retainedEntry
  split
  · rename_i h; rw [h]
  · rename_i h
    have : GoMap.contains pm (bareIP info c) = false := by simpa using h
    rw [this]; rfl

/-- Once a bare IP has been seen, a container with that bare IP leaves the
locals of the loop as they are. -/
theorem classifyStep_of_seen (info : InfoFromMetadata) (selfEntry : Entry)
    (pn : List (String × Bool)) (pm : List (String × Entry))
    (st : Classification) (c : Container)
    (h : GoMap.getD st.seen (bareIP info c) false = true) :
    classifyStep info selfEntry pn pm st c = st := by
  rw [classifyStep_eq, if_neg]
  rintro ⟨-, h'⟩
  rw [h] at h'
  exact Bool.noConfusion h'

theorem classify_append (info : InfoFromMetadata) (selfEntry : Entry)
    (pn : List (String × Bool)) (pm : List (String × Entry)) (l l' : List Container) :
    classify info selfEntry pn pm (l ++ l') =
      l'.foldl (classifyStep info selfEntry pn pm) (classify info selfEntry pn pm l) := by
  unfold classify
  rw [List.foldl_append]

/-- A successful `Reload` is `doInternalRefresh` on the information fetched. -/
theorem Reload_of_success (ms : MetadataStore) (h : (Reload ms).2 = none) :
    (Reload ms).1 =
      doInternalRefresh
        { ms with
          localSubnet := (GetBridgeInfo (reloadInfo ms.mc).selfNetwork ms.mc.GetSelfHost.1).2
          info := some (reloadInfo ms.mc) }
        (reloadInfo ms.mc) := by
  unfold Reload at h ⊢
  dsimp only at h ⊢
  cases h1 : ms.mc.GetSelfContainer.2 with
  | some e => rw [h1] at h; simp at h
  | none =>
  cases h2 : ms.mc.GetSelfHost.2 with
  | some e => rw [h1, h2] at h; simp at h
  | none =>
  cases h3 : ms.mc.GetHosts.2 with
  | some e => rw [h1, h2, h3] at h; simp at h
  | none =>
  cases h4 : ms.mc.GetContainers.2 with
  | some e => rw [h1, h2, h3, h4] at h; simp at h
  | none =>
  cases h5 : ms.mc.GetSelfService.2 with
  | some e => rw [h1, h2, h3, h4, h5] at h; simp at h
  | none =>
  cases h6 : ms.mc.GetServices.2 with
  | some e => rw [h1, h2, h3, h4, h5, h6] at h; simp at h
  | none =>
  cases h7 : ms.mc.GetNetworks.2 with
  | some e => rw [h1, h2, h3, h4, h5, h6, h7] at h; simp at h
  | none =>
  cases hn : GoMap.get? (getNetworksMapFromNetworksArray ms.mc.GetNetworks.1)
      ms.mc.GetSelfContainer.1.NetworkUUID with
  | none => rw [h1, h2, h3, h4, h5, h6, h7] at h; simp only [hn] at h; simp at h
  | some sn =>
    simp only [reloadInfo, GoMap.getD, hn, Option.getD_some]

/-- A failing `Reload` leaves the store as it was. -/
theorem Reload_of_error (ms : MetadataStore) (h : (Reload ms).2 ≠ none) :
    (Reload ms).1 = ms := by
  cases hr : (Reload ms).2 with
  | none => exact absurd hr h
  | some e =>
    clear h
    unfold Reload at hr ⊢
    dsimp only at hr ⊢
    repeat' split
    all_goals first | rfl | (exfalso; revert hr; simp_all)

/-- The error of `Reload` depends on the metadata answers only. -/
theorem Reload_error_eq (ms1 ms2 : MetadataStore) (h : ms1.mc = ms2.mc) :
    (Reload ms1).2 = (Reload ms2).2 := by
  unfold Reload
  dsimp only
  rw [h]
  repeat' split
  all_goals rfl

/-- The method `doInternalRefresh` keeps the client and the local subnet and
overwrites every other field. -/
theorem doInternalRefresh_congr (ms ms' : MetadataStore) (info : InfoFromMetadata)
    (hmc : ms.mc = ms'.mc) (hsub : ms.localSubnet = ms'.localSubnet) :
    doInternalRefresh ms info = doInternalRefresh ms' info := by
  unfold doInternalRefresh
  simp only [hmc, hsub]

theorem doInternalRefresh_mc (ms : MetadataStore) (info : InfoFromMetadata) :
    (doInternalRefresh ms info).mc = ms.mc := rfl

theorem Reload_mc (ms : MetadataStore) : (Reload ms).1.mc = ms.mc := by
  cases h : (Reload ms).2 with
  | none => rw [Reload_of_success ms h]; rfl
  | some e => rw [Reload_of_error ms (by rw [h]; simp)]

/-- The store after a successful `Reload` depends on the metadata answers
only. -/
theorem Reload_store_eq (ms1 ms2 : MetadataStore) (hmc : ms1.mc = ms2.mc)
    (hok : (Reload ms1).2 = none) : (Reload ms2).1 = (Reload ms1).1 := by
  have hok2 : (Reload ms2).2 = none := by rw [← Reload_error_eq ms1 ms2 hmc]; exact hok
  rw [Reload_of_success ms1 hok, Reload_of_success ms2 hok2, hmc]
  apply doInternalRefresh_congr <;> simp [hmc]

theorem getLinkedPeersInfo_region (info : InfoFromMetadata) (r : String) :
    getLinkedPeersInfo { info with region := r } = getLinkedPeersInfo info := rfl

/-- When the environments cannot be fetched, the candidates are those of the
local environment, as with no region. -/
theorem gatherCandidates_environments_error (mc : MetadataClient) (info : InfoFromMetadata)
    (err : String) (henv : mc.GetEnvironments.2 = some err) :
    gatherCandidates mc info =
      gatherCandidates (withoutRegion mc) { info with region := "" } := by
  unfold gatherCandidates getRegionsInfo
  simp only [henv]
  by_cases hr : info.region = ""
  · simp [hr, getLinkedPeersInfo_region]
  · simp [hr, getLinkedPeersInfo_region]

theorem Reload_error_withoutRegion (ms : MetadataStore) :
    (Reload { ms with mc := withoutRegion ms.mc }).2 = (Reload ms).2 := by
  unfold Reload withoutRegion
  dsimp only
  repeat' split
  all_goals rfl

theorem reloadInfo_withoutRegion (mc : MetadataClient) :
    reloadInfo (withoutRegion mc) = { reloadInfo mc with region := "" } := rfl

/-- When the environments cannot be fetched, `doInternalRefresh` computes the
topology of the store without a region. -/
theorem doInternalRefresh_environments_error (ms ms0 : MetadataStore)
    (info : InfoFromMetadata) (err : String) (henv : ms.mc.GetEnvironments.2 = some err)
    (hmc : ms0.mc = withoutRegion ms.mc) :
    (doInternalRefresh ms info).entries =
        (doInternalRefresh ms0 { info with region := "" }).entries ∧
    (doInternalRefresh ms info).localMap =
        (doInternalRefresh ms0 { info with region := "" }).localMap ∧
    (doInternalRefresh ms info).remote =
        (doInternalRefresh ms0 { info with region := "" }).remote ∧
    (doInternalRefresh ms info).peersMap =
        (doInternalRefresh ms0 { info with region := "" }).peersMap ∧
    (doInternalRefresh ms info).remoteNonPeersMap =
        (doInternalRefresh ms0 { info with region := "" }).remoteNonPeersMap ∧
    (doInternalRefresh ms info).self =
        (doInternalRefresh ms0 { info with region := "" }).self := by
  have hg := gatherCandidates_environments_error ms.mc info err henv
  unfold doInternalRefresh refreshedInfo peerContainers
  simp only [hmc, ← hg]
  exact ⟨rfl, rfl, rfl, rfl, rfl, rfl⟩

theorem length_filter_key_le_one {α β : Type} [DecidableEq β] (f : α → β) (l : List α)
    (b : β) (hnd : (l.map f).Nodup) : (l.filter (fun x => f x == b)).length ≤ 1 := by
  by_cases h : ∃ a ∈ l, f a = b
  · obtain ⟨a, ha, hab⟩ := h
    subst hab
    rw [filter_key_eq_singleton f l a hnd ha]
    simp
  · have : l.filter (fun x => f x == b) = [] := by
      rw [List.filter_eq_nil_iff]
      intro y hy hfy
      exact h ⟨y, hy, by simpa using hfy⟩
    rw [this]
    simp

/-- An Entry of the entries sequence with the self flag has the bare IP of
the self container, and the container it was built from has the primary
address of the self container. -/
theorem refresh_self_entry (ms : MetadataStore) (info : InfoFromMetadata) (e : Entry)
    (he : e ∈ (doInternalRefresh ms info).entries) (hs : e.Self = true) :
    splitFirst e.IPAddress = bareIP (refreshedInfo ms.mc info) info.selfContainer ∧
    ∃ c, firstFor (refreshedInfo ms.mc info) (gatherCandidates ms.mc info).peersNetworks
        (bareIP (refreshedInfo ms.mc info) info.selfContainer)
        (gatherCandidates ms.mc info).allContainers = some c ∧
      c.PrimaryIp = info.selfContainer.PrimaryIp := by
  obtain ⟨c, hc, hec⟩ := (refresh_entries_mem ms info e).1 he
  have hp : c.PrimaryIp = info.selfContainer.PrimaryIp := by
    rw [hec, retainedEntry_Self] at hs
    simpa [refreshedInfo] using hs
  have hk : splitFirst e.IPAddress =
      bareIP (refreshedInfo ms.mc info) info.selfContainer := by
    rw [hec, splitFirst_retainedEntry]
    unfold bareIP getEntryFromContainer
    simp only [hp]
  refine ⟨hk, c, ?_, hp⟩
  rw [← hk]
  exact hc

theorem allContainers_eq (mc : MetadataClient) (info : InfoFromMetadata) :
    (gatherCandidates mc info).allContainers = info.containers ++ regionCandidates mc info := by
  unfold gatherCandidates regionCandidates
  by_cases hr : info.region = ""
  · simp [hr]
  · simp only [bne_iff_ne, ne_eq, hr, not_false_eq_true, if_true]
    cases getRegionsInfo mc info <;> simp

theorem passesFilters_iff (pn : List (String × Bool)) (c : Container) :
    passesFilters pn c = true ↔
      IsContainerConsideredRunning c = true ∧ GoMap.contains pn c.NetworkUUID = true ∧
        c.PrimaryIp ≠ "" ∧ c.NetworkFromContainerUUID = "" := by
  unfold passesFilters
  simp [and_assoc]

theorem foldl_mem_of_mem {α β γ : Type} (f : β → α → β) (proj : β → List γ) (x : γ)
    (hmono : ∀ b a, x ∈ proj b → x ∈ proj (f b a)) :
    ∀ (l : List α) (b : β), x ∈ proj b → x ∈ proj (l.foldl f b)
  | [], _, h => h
  | a :: l, b, h => foldl_mem_of_mem f proj x hmono l (f b a) (hmono b a h)

theorem foldl_mem_of_step {α β γ : Type} (f : β → α → β) (proj : β → List γ) (x : γ)
    (hmono : ∀ b a, x ∈ proj b → x ∈ proj (f b a)) (a : α)
    (hadd : ∀ b, x ∈ proj (f b a)) :
    ∀ (l : List α) (b : β), a ∈ l → x ∈ proj (l.foldl f b)
  | [], _, h => by simp at h
  | a' :: l, b, h => by
    rcases List.mem_cons.1 h with rfl | h'
    · exact foldl_mem_of_mem f proj x hmono l _ (hadd b)
    · exact foldl_mem_of_step f proj x hmono a hadd l (f b a') h'

/-- A system service other than the self service is listed in the services
map under its `stack_name/service_name`. -/
theorem mem_getServicesMapByName (services : List Service) (selfService s : Service)
    (hs : s ∈ services) (hsys : s.System = true) (hne : s.UUID ≠ selfService.UUID) :
    s ∈ GoMap.getD (getServicesMapByName services selfService)
      (s.StackName ++ "/" ++ s.Name) [] := by
  unfold getServicesMapByName
  refine foldl_mem_of_step _ (fun m => GoMap.getD m (s.StackName ++ "/" ++ s.Name) []) s
    ?_ s ?_ services [] hs
  · intro m a hmem
    have hmem' : s ∈ GoMap.getD m (s.StackName ++ "/" ++ s.Name) [] := hmem
    simp only
    split
    · exact hmem
    · split
      · rename_i value hv
        rw [GoMap.getD_set]
        split
        · rename_i hk
          unfold GoMap.getD at hmem'
          rw [← hk, hv] at hmem'
          exact List.mem_append_left _ hmem'
        · exact hmem
      · rename_i hv
        rw [GoMap.getD_set]
        split
        · rename_i hk
          unfold GoMap.getD at hmem'
          rw [← hk, hv] at hmem'
          simp at hmem'
        · exact hmem
  · intro m
    simp only
    have hcond : (!s.System || s.UUID == selfService.UUID) = false := by
      simp [hsys, hne]
    rw [hcond]
    simp only [Bool.false_eq_true, if_false]
    split <;> rw [GoMap.getD_set] <;> simp

theorem linkedContainerStep_mono (info : InfoFromMetadata) (x : Container)
    (acc : List (String × Bool) × List Container) (a : Container) (h : x ∈ acc.2) :
    x ∈ (linkedContainerStep info acc a).2 := by
  unfold linkedContainerStep
  split
  · exact h
  · split
    · exact h
    · exact List.mem_append_left _ h

theorem linkedContainerStep_add (info : InfoFromMetadata) (c : Container)
    (hrun : IsContainerConsideredRunning c = true)
    (hnet : (GoMap.getD info.networksMap c.NetworkUUID {}).Name = info.selfNetwork.Name)
    (acc : List (String × Bool) × List Container) :
    c ∈ (linkedContainerStep info acc c).2 := by
  unfold linkedContainerStep
  simp [hrun, hnet]

theorem linkedServicesLoop_mono (info : InfoFromMetadata) (x : Container)
    (services : List Service) (acc : List (String × Bool) × List Container)
    (h : x ∈ acc.2) : x ∈ (linkedServicesLoop info services acc).2 := by
  unfold linkedServicesLoop
  refine foldl_mem_of_mem _ (fun b : List (String × Bool) × List Container => b.2) x ?_ services acc h
  intro b a hb
  exact foldl_mem_of_mem _ (fun b : List (String × Bool) × List Container => b.2) x (linkedContainerStep_mono info x) _ b hb

theorem linkedServicesLoop_add (info : InfoFromMetadata) (services : List Service)
    (s : Service) (c : Container) (hs : s ∈ services) (hc : c ∈ s.Containers)
    (hrun : IsContainerConsideredRunning c = true)
    (hnet : (GoMap.getD info.networksMap c.NetworkUUID {}).Name = info.selfNetwork.Name)
    (acc : List (String × Bool) × List Container) :
    c ∈ (linkedServicesLoop info services acc).2 := by
  unfold linkedServicesLoop
  refine foldl_mem_of_step _ (fun b : List (String × Bool) × List Container => b.2) c ?_ s ?_ services acc hs
  · intro b a hb
    exact foldl_mem_of_mem _ (fun b : List (String × Bool) × List Container => b.2) c (linkedContainerStep_mono info c) _ b hb
  · intro b
    exact foldl_mem_of_step _ (fun b : List (String × Bool) × List Container => b.2) c (linkedContainerStep_mono info c) c
      (linkedContainerStep_add info c hrun hnet) _ b hc

/-- The running containers, on a network named like the self network, of a
service listed under a link of the self service are linked peers. -/
theorem mem_getLinkedPeersInfo (info : InfoFromMetadata) (key : String) (s : Service)
    (c : Container) (hlink : key ∈ GoMap.keys info.selfService.Links)
    (hs : s ∈ GoMap.getD info.servicesMapByName key [])
    (hc : c ∈ s.Containers) (hrun : IsContainerConsideredRunning c = true)
    (hnet : (GoMap.getD info.networksMap c.NetworkUUID {}).Name = info.selfNetwork.Name) :
    c ∈ (getLinkedPeersInfo info).2 := by
  unfold getLinkedPeersInfo
  obtain ⟨link, hl, hk⟩ := List.mem_map.1 hlink
  have hpos : info.selfService.Links.length > 0 := List.length_pos_of_mem hl
  rw [if_pos hpos]
  refine foldl_mem_of_step _ (fun b : List (String × Bool) × List Container => b.2) c ?_ link ?_ _ _ hl
  · intro b a hb
    simp only
    split
    · exact hb
    · exact linkedServicesLoop_mono info c _ b hb
  · intro b
    simp only
    unfold GoMap.getD at hs
    rw [hk]
    cases hg : GoMap.get? info.servicesMapByName key with
    | none => rw [hg] at hs; simp at hs
    | some svcs =>
      rw [hg] at hs
      exact linkedServicesLoop_add info svcs s c hs hc hrun hnet b

theorem allPeersContainers_of_linked (mc : MetadataClient) (info : InfoFromMetadata)
    (c : Container) (h : c ∈ (getLinkedPeersInfo info).2) :
    c ∈ peerContainers mc info := by
  unfold peerContainers gatherCandidates
  apply List.mem_append_left
  by_cases hr : info.region = ""
  · simp [hr, h]
  · simp only [bne_iff_ne, ne_eq, hr, not_false_eq_true, if_true]
    cases getRegionsInfo mc info
    · exact h
    · exact List.mem_append_left _ h

/-- Every Entry of the peers map has the peer flag. -/
theorem buildPeersMap_Peer (info : InfoFromMetadata) (cs : List Container) (k : String)
    (e : Entry) (h : GoMap.get? (buildPeersMap info cs) k = some e) : e.Peer = true := by
  induction cs using List.reverseRecOn generalizing e with
  | nil => simp [buildPeersMap, GoMap.get?] at h
  | append_singleton l c ih =>
    have hstep : buildPeersMap info (l ++ [c]) =
        GoMap.set (buildPeersMap info l) (bareIP info c)
          { getEntryFromContainer info c with Peer := true } := by
      unfold buildPeersMap
      rw [List.foldl_append]
      rfl
    rw [hstep, GoMap.get?_set] at h
    split at h
    · cases h; rfl
    · exact ih e h

theorem GoMap.keys_set_nodup {α : Type} (m : List (String × α)) (k : String) (v : α)
    (h : (GoMap.keys m).Nodup) : (GoMap.keys (GoMap.set m k v)).Nodup := by
  have hmem : ∀ (m : List (String × α)) (x : String),
      x ∈ GoMap.keys (GoMap.set m k v) ↔ x = k ∨ x ∈ GoMap.keys m := by
    intro m x
    rw [GoMap.mem_keys_iff, GoMap.mem_keys_iff]
    simp only [GoMap.get?_set]
    by_cases hx : k = x
    · simp [hx]
    · have hx' : ¬ x = k := fun e => hx e.symm
      simp [hx, hx']
  induction m with
  | nil => simp [GoMap.set, GoMap.keys]
  | cons p m ih =>
    obtain ⟨a, b⟩ := p
    have hnd : a ∉ GoMap.keys m ∧ (GoMap.keys m).Nodup :=
      List.nodup_cons.1 (show (a :: GoMap.keys m).Nodup from h)
    by_cases hak : a = k
    · subst hak
      have : GoMap.set ((a, b) :: m) a v = (a, v) :: m := by simp [GoMap.set]
      rw [this]
      exact (show (a :: GoMap.keys m).Nodup from h)
    · have : GoMap.set ((a, b) :: m) k v = (a, b) :: GoMap.set m k v := by
        simp [GoMap.set, hak]
      rw [this]
      have h1 : a ∉ GoMap.keys (GoMap.set m k v) := by
        rw [hmem]
        rintro (e | e)
        · exact hak e
        · exact hnd.1 e
      have h2 := ih hnd.2
      exact (show (a :: GoMap.keys (GoMap.set m k v)).Nodup from List.nodup_cons.2 ⟨h1, h2⟩)

theorem GoMap.mem_iff_get? {α : Type} (m : List (String × α)) (h : (GoMap.keys m).Nodup)
    (k : String) (v : α) : (k, v) ∈ m ↔ GoMap.get? m k = some v := by
  induction m with
  | nil => simp [GoMap.get?]
  | cons p m ih =>
    obtain ⟨a, b⟩ := p
    have hnd : a ∉ GoMap.keys m ∧ (GoMap.keys m).Nodup :=
      List.nodup_cons.1 (show (a :: GoMap.keys m).Nodup from h)
    by_cases hak : a = k
    · subst hak
      have hnot : ∀ v, (a, v) ∉ m := fun v hv =>
        hnd.1 (List.mem_map.2 ⟨(a, v), hv, rfl⟩)
      simp [GoMap.get?, hnot v, eq_comm]
    · have hak' : ¬ k = a := fun e => hak e.symm
      simp [GoMap.get?, hak, hak', ih hnd.2]

theorem buildHostsMap_nodup (hosts : List Host) (selfHost : Host) :
    (GoMap.keys (buildHostsMap hosts selfHost)).Nodup := by
  unfold buildHostsMap
  have : ∀ (l : List Host) (m : List (String × Bool)), (GoMap.keys m).Nodup →
      (GoMap.keys (l.foldl (fun hostsMap aHost =>
        if aHost.UUID == selfHost.UUID then hostsMap
        else GoMap.set hostsMap aHost.AgentIP false) m)).Nodup := by
    intro l
    induction l with
    | nil => intro m hm; exact hm
    | cons a l ih =>
      intro m hm
      rw [List.foldl_cons]
      apply ih
      split
      · exact hm
      · exact GoMap.keys_set_nodup _ _ _ hm
  exact this hosts [] (by simp [GoMap.keys])

theorem markFound_nodup (m : List (String × Bool)) (sas : List (List (String × IkeSa)))
    (hm : (GoMap.keys m).Nodup) : (GoMap.keys (markFound m sas)).Nodup := by
  unfold markFound
  induction sas generalizing m with
  | nil => exact hm
  | cons sa sas ih =>
    rw [List.foldl_cons]
    apply ih
    induction sa generalizing m with
    | nil => exact hm
    | cons kv sa ih2 =>
      rw [List.foldl_cons]
      exact ih2 _ (GoMap.keys_set_nodup _ _ _ hm)

/-- The hosts map binds an address to "not found" exactly when it is the
AgentIP of a host other than the self host, and binds nothing else. -/
theorem buildHostsMap_get? (hosts : List Host) (selfHost : Host) (k : String) :
    GoMap.get? (buildHostsMap hosts selfHost) k =
      if ∃ h ∈ hosts, h.UUID ≠ selfHost.UUID ∧ h.AgentIP = k then some false else none := by
  unfold buildHostsMap
  have : ∀ (l : List Host) (m : List (String × Bool)),
      GoMap.get? (l.foldl (fun hostsMap aHost =>
        if aHost.UUID == selfHost.UUID then hostsMap
        else GoMap.set hostsMap aHost.AgentIP false) m) k =
      if ∃ h ∈ l, h.UUID ≠ selfHost.UUID ∧ h.AgentIP = k then some false
      else GoMap.get? m k := by
    intro l
    induction l with
    | nil => intro m; simp
    | cons a l ih =>
      intro m
      rw [List.foldl_cons, ih]
      by_cases hl : ∃ h ∈ l, h.UUID ≠ selfHost.UUID ∧ h.AgentIP = k
      · have : ∃ h ∈ a :: l, h.UUID ≠ selfHost.UUID ∧ h.AgentIP = k := by
          obtain ⟨h, hh, hc⟩ := hl
          exact ⟨h, List.mem_cons_of_mem _ hh, hc⟩
        rw [if_pos hl, if_pos this]
      · rw [if_neg hl]
        by_cases ha : a.UUID ≠ selfHost.UUID ∧ a.AgentIP = k
        · have : ∃ h ∈ a :: l, h.UUID ≠ selfHost.UUID ∧ h.AgentIP = k :=
            ⟨a, List.mem_cons_self _ _, ha⟩
          rw [if_pos this]
          have hne : (a.UUID == selfHost.UUID) = false := by simpa using ha.1
          simp [hne, GoMap.get?_set, ha.2]
        · have : ¬ ∃ h ∈ a :: l, h.UUID ≠ selfHost.UUID ∧ h.AgentIP = k := by
            rintro ⟨h, hh, hc⟩
            rcases List.mem_cons.1 hh with rfl | hh
            · exact ha hc
            · exact hl ⟨h, hh, hc⟩
          rw [if_neg this]
          by_cases hu : a.UUID = selfHost.UUID
          · simp [hu]
          · have hk : ¬ a.AgentIP = k := fun e => ha ⟨hu, e⟩
            have hne : (a.UUID == selfHost.UUID) = false := by simpa using hu
            simp [hne, GoMap.get?_set, hk]
  rw [this hosts []]
  simp [GoMap.get?]

/-- Marking the listed SAs binds their remote hosts to "found" and leaves
every other binding as it was. -/
theorem markFound_get? (m : List (String × Bool)) (sas : List (List (String × IkeSa)))
    (k : String) :
    GoMap.get? (markFound m sas) k =
      if ∃ sa ∈ sas, ∃ kv ∈ sa, kv.2.Remote_host = k then some true else GoMap.get? m k := by
  unfold markFound
  have inner : ∀ (sa : List (String × IkeSa)) (m : List (String × Bool)),
      GoMap.get? (sa.foldl (fun m1 kv => GoMap.set m1 kv.2.Remote_host true) m) k =
        if ∃ kv ∈ sa, kv.2.Remote_host = k then some true else GoMap.get? m k := by
    intro sa
    induction sa with
    | nil => intro m; simp
    | cons kv sa ih =>
      intro m
      rw [List.foldl_cons, ih]
      by_cases h1 : ∃ kv' ∈ sa, kv'.2.Remote_host = k
      · have : ∃ kv' ∈ kv :: sa, kv'.2.Remote_host = k := by
          obtain ⟨x, hx, hc⟩ := h1
          exact ⟨x, List.mem_cons_of_mem _ hx, hc⟩
        rw [if_pos h1, if_pos this]
      · rw [if_neg h1, GoMap.get?_set]
        by_cases h2 : kv.2.Remote_host = k
        · have : ∃ kv' ∈ kv :: sa, kv'.2.Remote_host = k := ⟨kv, List.mem_cons_self _ _, h2⟩
          rw [if_pos h2, if_pos this]
        · have : ¬ ∃ kv' ∈ kv :: sa, kv'.2.Remote_host = k := by
            rintro ⟨x, hx, hc⟩
            rcases List.mem_cons.1 hx with rfl | hx
            · exact h2 hc
            · exact h1 ⟨x, hx, hc⟩
          rw [if_neg h2, if_neg this]
  induction sas generalizing m with
  | nil => simp
  | cons sa sas ih =>
    rw [List.foldl_cons, ih, inner]
    by_cases h1 : ∃ sa' ∈ sas, ∃ kv ∈ sa', kv.2.Remote_host = k
    · have : ∃ sa' ∈ sa :: sas, ∃ kv ∈ sa', kv.2.Remote_host = k := by
        obtain ⟨x, hx, hc⟩ := h1
        exact ⟨x, List.mem_cons_of_mem _ hx, hc⟩
      rw [if_pos h1, if_pos this]
    · rw [if_neg h1]
      by_cases h2 : ∃ kv ∈ sa, kv.2.Remote_host = k
      · have : ∃ sa' ∈ sa :: sas, ∃ kv ∈ sa', kv.2.Remote_host = k :=
          ⟨sa, List.mem_cons_self _ _, h2⟩
        rw [if_pos h2, if_pos this]
      · have : ¬ ∃ sa' ∈ sa :: sas, ∃ kv ∈ sa', kv.2.Remote_host = k := by
          rintro ⟨x, hx, hc⟩
          rcases List.mem_cons.1 hx with rfl | hx
          · exact h2 hc
          · exact h1 ⟨x, hx, hc⟩
        rw [if_neg h2, if_neg this]

theorem String.append_left_cancel (p a b : String) (h : p ++ a = p ++ b) : a = b := by
  have h' := congrArg String.data h
  simp only [String.data_append] at h'
  exact String.ext (List.append_cancel_left h')

theorem initiatedNames_append (l l' : List DaemonCall) :
    initiatedNames (l ++ l') = initiatedNames l ++ initiatedNames l' := by
  unfold initiatedNames
  rw [List.filterMap_append]

theorem initiatedNames_getClientLoop (d : Daemon) (n i : Nat) (err : Option String) :
    initiatedNames (getClientLoop d n i err).1 = [] := by
  induction n generalizing i err with
  | zero => simp [getClientLoop, initiatedNames]
  | succ n ih =>
    unfold getClientLoop
    split
    · simp [initiatedNames]
    · have := ih (i + 1) (some ‹String›)
      simp only [initiatedNames, List.filterMap_cons] at this ⊢
      exact this

theorem initiatedNames_initiateMissing (d : Daemon) (m : List (String × Bool)) :
    initiatedNames (initiateMissing d m) =
      (m.filter (fun kv => !kv.2)).map (fun kv => "child-" ++ kv.1) := by
  unfold initiatedNames initiateMissing
  induction m.filter (fun kv => !kv.2) with
  | nil => simp
  | cons kv l ih => simp [List.filterMap_cons, ih]

/-- One iteration of the monitor with an active self service, the hosts
fetched, a connection obtained and the SAs listed. -/
theorem monitorTick_of_success (mc : MetadataClient) (d : Daemon)
    (hsvc : mc.GetSelfService.2 = none) (hact : mc.GetSelfService.1.State = "active")
    (hhosts : mc.GetHosts.2 = none) (hself : mc.GetSelfHost.2 = none)
    (hconn : (getClient d).2 = none) (hsas : d.ListSas.2 = none) :
    monitorTick mc d =
      { calls := (getClient d).1 ++ [DaemonCall.listSas] ++
          initiateMissing d (markFound (buildHostsMap mc.GetHosts.1 mc.GetSelfHost.1)
            d.ListSas.1)
        deferred := [DaemonCall.close] } := by
  unfold monitorTick
  simp [hsvc, hact, hhosts, hself, hconn, hsas]

theorem close_not_mem_getClientLoop (d : Daemon) (n i : Nat) (err : Option String) :
    DaemonCall.close ∉ (getClientLoop d n i err).1 := by
  induction n generalizing i err with
  | zero => simp [getClientLoop]
  | succ n ih =>
    unfold getClientLoop
    split
    · simp
    · have := ih (i + 1) (some ‹String›)
      simpa using this

theorem close_not_mem_monitorTick (mc : MetadataClient) (d : Daemon) :
    DaemonCall.close ∉ (monitorTick mc d).calls := by
  have h1 := close_not_mem_getClientLoop d 3 0 none
  have h2 : ∀ m, DaemonCall.close ∉ initiateMissing d m := by
    intro m hm
    unfold initiateMissing at hm
    obtain ⟨kv, -, hkv⟩ := List.mem_map.1 hm
    exact DaemonCall.noConfusion hkv
  have h3 : DaemonCall.close ∉ (getClient d).1 := h1
  unfold monitorTick
  cases mc.GetSelfService.2 with
  | some _ => simp
  | none =>
    by_cases hst : (mc.GetSelfService.1.State != "active") = true
    · simp [hst]
    · cases mc.GetHosts.2 with
      | some _ => simp [hst]
      | none =>
        cases mc.GetSelfHost.2 with
        | some _ => simp [hst]
        | none =>
          cases hc : (getClient d).2 with
          | some _ => simp [hst, hc, h3]
          | none =>
            cases d.ListSas.2 with
            | some _ => simp [hst, hc, h3]
            | none => simp [hst, hc, h3, h2]

/-- The monitor never closes a connection: no iteration of its loop calls
`Close`. -/
theorem monitorSAs_close_not_mem (ticks : List (MetadataClient × Daemon)) :
    DaemonCall.close ∉ (monitorSAs ticks).calls := by
  unfold monitorSAs
  induction ticks using List.reverseRecOn with
  | nil => simp
  | append_singleton l t ih =>
    rw [List.foldl_append]
    simp only [List.foldl_cons, List.foldl_nil, List.mem_append, not_or]
    exact ⟨ih, close_not_mem_monitorTick t.1 t.2⟩

theorem IsRemote_eq_true_iff (ms : MetadataStore) (ip : String) :
    IsRemote ms ip = true ↔ ip ∉ GoMap.keys ms.localMap ∧ ip ∈ GoMap.keys ms.remote := by
  rw [GoMap.not_mem_keys_iff, GoMap.mem_keys_iff]
  unfold IsRemote
  cases GoMap.get? ms.localMap ip <;> cases GoMap.get? ms.remote ip <;> simp

/-- After a successful `Reload` the revision is the digest of the IKE bytes
followed by the CHILD_SA bytes. -/
theorem Templates.revision_of_success {IKEConf ChildSAConf : Type}
    (lib : TemplateLibs IKEConf ChildSAConf) (fs : ConfigFiles) (t : Templates)
    (h : (Templates.Reload lib fs t).2 = none) :
    (Templates.Reload lib fs t).1.revision =
      lib.sha1Hex ((Templates.Reload lib fs t).1.ikeConfTemplate ++
        (Templates.Reload lib fs t).1.childSaConfTemplate) := by
  unfold Templates.Reload at h ⊢
  dsimp only at h ⊢
  repeat' split
  all_goals first | rfl | (exfalso; revert h; simp_all)

/-- Two successful reloads whose IKE bytes followed by CHILD_SA bytes are the
same sequence have the same revision, whatever the digest function. -/
theorem Templates.revision_eq_of_concatenation_eq {IKEConf ChildSAConf : Type}
    (lib : TemplateLibs IKEConf ChildSAConf) (fs1 fs2 : ConfigFiles) (t1 t2 : Templates)
    (hok1 : (Templates.Reload lib fs1 t1).2 = none)
    (hok2 : (Templates.Reload lib fs2 t2).2 = none)
    (h : (Templates.Reload lib fs1 t1).1.ikeConfTemplate ++
          (Templates.Reload lib fs1 t1).1.childSaConfTemplate =
        (Templates.Reload lib fs2 t2).1.ikeConfTemplate ++
          (Templates.Reload lib fs2 t2).1.childSaConfTemplate) :
    (Templates.Reload lib fs1 t1).1.revision = (Templates.Reload lib fs2 t2).1.revision := by
  rw [Templates.revision_of_success lib fs1 t1 hok1,
    Templates.revision_of_success lib fs2 t2 hok2, h]
/-! ## Properties of the topology store -/

/-- C1. After `doInternalRefresh` no bare IP is a key of both `local` and
`remote`, and the bare IP of every Entry of the entries sequence is a key of
exactly one of the two maps. -/
theorem local_remote_disjoint_and_cover (ms : MetadataStore) (info : InfoFromMetadata) :
    (∀ k, ¬ (k ∈ GoMap.keys (doInternalRefresh ms info).localMap ∧
        k ∈ GoMap.keys (doInternalRefresh ms info).remote)) ∧
    (∀ e ∈ Entries (doInternalRefresh ms info),
      (splitFirst e.IPAddress ∈ GoMap.keys (doInternalRefresh ms info).localMap ∧
        splitFirst e.IPAddress ∉ GoMap.keys (doInternalRefresh ms info).remote) ∨
      (splitFirst e.IPAddress ∉ GoMap.keys (doInternalRefresh ms info).localMap ∧
        splitFirst e.IPAddress ∈ GoMap.keys (doInternalRefresh ms info).remote)) := by
  have hdisj : ∀ k, ¬ (k ∈ GoMap.keys (doInternalRefresh ms info).localMap ∧
        k ∈ GoMap.keys (doInternalRefresh ms info).remote) := by
    rintro k ⟨h1, h2⟩
    rw [GoMap.mem_keys_iff] at h1 h2
    obtain ⟨v1, h1⟩ := h1
    obtain ⟨v2, h2⟩ := h2
    obtain ⟨c1, hc1, he1, hh1⟩ := (refresh_local_some ms info k v1).1 h1
    obtain ⟨c2, hc2, he2, hh2⟩ := (refresh_remote_some ms info k v2).1 h2
    rw [hc1] at hc2
    cases hc2
    rw [he1] at hh1
    rw [he2] at hh2
    exact hh2 hh1
  refine ⟨hdisj, ?_⟩
  intro e he
  obtain ⟨c, hc, hec⟩ := (refresh_entries_mem ms info e).1 he
  by_cases hh : e.HostIPAddress = (doInternalRefresh ms info).self.HostIPAddress
  · have hl : splitFirst e.IPAddress ∈ GoMap.keys (doInternalRefresh ms info).localMap :=
      (GoMap.mem_keys_iff _ _).2 ⟨e, (refresh_local_some ms info _ e).2 ⟨c, hc, hec, hh⟩⟩
    exact Or.inl ⟨hl, fun hr => hdisj _ ⟨hl, hr⟩⟩
  · have hr : splitFirst e.IPAddress ∈ GoMap.keys (doInternalRefresh ms info).remote :=
      (GoMap.mem_keys_iff _ _).2 ⟨e, (refresh_remote_some ms info _ e).2 ⟨c, hc, hec, hh⟩⟩
    exact Or.inr ⟨fun hl => hdisj _ ⟨hl, hr⟩, hr⟩

/-- C2. After `doInternalRefresh` a bare IP is a key of `remoteNonPeers`
exactly when it is a key of `remote` and not a key of `peers`, and at such a
key both maps hold the same Entry. -/
theorem remoteNonPeers_is_remote_without_peers (ms : MetadataStore)
    (info : InfoFromMetadata) (k : String) :
    (k ∈ GoMap.keys (RemoteNonPeerEntriesMap (doInternalRefresh ms info)) ↔
      k ∈ GoMap.keys (RemoteEntriesMap (doInternalRefresh ms info)) ∧
        k ∉ GoMap.keys (PeerEntriesMap (doInternalRefresh ms info))) ∧
    (k ∈ GoMap.keys (RemoteNonPeerEntriesMap (doInternalRefresh ms info)) →
      GoMap.get? (RemoteNonPeerEntriesMap (doInternalRefresh ms info)) k =
        GoMap.get? (RemoteEntriesMap (doInternalRefresh ms info)) k) := by
  unfold RemoteNonPeerEntriesMap RemoteEntriesMap PeerEntriesMap
  have hsub : ∀ e, GoMap.get? (doInternalRefresh ms info).remoteNonPeersMap k = some e →
      GoMap.get? (doInternalRefresh ms info).remote k = some e ∧
        k ∉ GoMap.keys (doInternalRefresh ms info).peersMap := by
    intro e he
    obtain ⟨c, hc, hec, hh, hp⟩ := (refresh_nonPeers_some ms info k e).1 he
    refine ⟨(refresh_remote_some ms info k e).2 ⟨c, hc, hec, hh⟩, ?_⟩
    rw [hec, retainedEntry_Peer, (firstFor_some hc).2.2] at hp
    intro hk
    rw [(GoMap.contains_iff _ _).2 hk] at hp
    exact Bool.noConfusion hp
  refine ⟨⟨?_, ?_⟩, ?_⟩
  · intro hk
    obtain ⟨e, he⟩ := (GoMap.mem_keys_iff _ _).1 hk
    exact ⟨(GoMap.mem_keys_iff _ _).2 ⟨e, (hsub e he).1⟩, (hsub e he).2⟩
  · rintro ⟨hr, hp⟩
    obtain ⟨e, he⟩ := (GoMap.mem_keys_iff _ _).1 hr
    obtain ⟨c, hc, hec, hh⟩ := (refresh_remote_some ms info k e).1 he
    refine (GoMap.mem_keys_iff _ _).2 ⟨e, (refresh_nonPeers_some ms info k e).2 ⟨c, hc, hec, hh, ?_⟩⟩
    rw [hec, retainedEntry_Peer, (firstFor_some hc).2.2]
    cases hcon : GoMap.contains (doInternalRefresh ms info).peersMap k
    · rfl
    · exact absurd ((GoMap.contains_iff _ _).1 hcon) hp
  · intro hk
    obtain ⟨e, he⟩ := (GoMap.mem_keys_iff _ _).1 hk
    rw [he, (hsub e he).1]

/-- C3, counterexample. On the concrete snapshot `Reload` succeeds and the
address 10.42.0.9 of the sidekick container of the self service is a key of
the peers map, yet a key of neither `local` nor `remote`: the container is
running, so it is a peer, and it takes its network from another container,
so the classification loop skips it. -/
theorem peers_not_subset_of_classified :
    (Reload demoStore).2 = none ∧
    "10.42.0.9" ∈ GoMap.keys (PeerEntriesMap (Reload demoStore).1) ∧
    "10.42.0.9" ∉ GoMap.keys (Reload demoStore).1.localMap ∧
    "10.42.0.9" ∉ GoMap.keys (RemoteEntriesMap (Reload demoStore).1) := by
  decide

/-- C3, amended. After `doInternalRefresh` every key of the peers map is the
bare IP of a peer container, and it is a key of `local` or of `remote`
exactly when some candidate container with that bare IP, the peer container
or another one, passes the filters of the classification loop (considered
running, network among the peer networks, a primary address, no
network-from-container reference); a key of the peers map with no such
candidate is in neither map. -/
theorem peers_key_classified_iff (ms : MetadataStore) (info : InfoFromMetadata)
    (k : String) (hk : k ∈ GoMap.keys (PeerEntriesMap (doInternalRefresh ms info))) :
    (∃ p ∈ peerContainers ms.mc info, bareIP (refreshedInfo ms.mc info) p = k) ∧
    ((k ∈ GoMap.keys (doInternalRefresh ms info).localMap ∨
        k ∈ GoMap.keys (RemoteEntriesMap (doInternalRefresh ms info))) ↔
      ∃ c ∈ (gatherCandidates ms.mc info).allContainers,
        passesFilters (gatherCandidates ms.mc info).peersNetworks c = true ∧
          bareIP (refreshedInfo ms.mc info) c = k) ∧
    ((¬ ∃ c ∈ (gatherCandidates ms.mc info).allContainers,
        passesFilters (gatherCandidates ms.mc info).peersNetworks c = true ∧
          bareIP (refreshedInfo ms.mc info) c = k) →
      k ∉ GoMap.keys (doInternalRefresh ms info).localMap ∧
        k ∉ GoMap.keys (RemoteEntriesMap (doInternalRefresh ms info))) := by
  have hiff := classified_iff ms info k
  refine ⟨(mem_keys_buildPeersMap _ _ _).1 hk, hiff, ?_⟩
  intro hno
  exact ⟨fun hl => hno (hiff.1 (Or.inl hl)), fun hr => hno (hiff.1 (Or.inr hr))⟩

/-- C3, witness: on the concrete snapshot the key 10.42.0.1 of the peers map
is classified, a candidate with that address passing the filters, and the key
10.42.0.9 is in neither map, its only container being skipped; and where the
agent shares the address of its running holder, the key 10.42.0.1 is
classified through the holder although the agent's own container is
skipped. -/
theorem peers_key_classified_iff_witness :
    ("10.42.0.1" ∈ GoMap.keys (doInternalRefresh demoStore demoInfo).localMap ∨
        "10.42.0.1" ∈ GoMap.keys (RemoteEntriesMap (doInternalRefresh demoStore demoInfo))) ∧
    ("10.42.0.9" ∉ GoMap.keys (doInternalRefresh demoStore demoInfo).localMap ∧
        "10.42.0.9" ∉ GoMap.keys (RemoteEntriesMap (doInternalRefresh demoStore demoInfo))) ∧
    passesFilters (gatherCandidates sharedAddressClient
        (reloadInfo sharedAddressClient)).peersNetworks cRouter = false ∧
    ("10.42.0.1" ∈ GoMap.keys (doInternalRefresh { mc := sharedAddressClient }
          (reloadInfo sharedAddressClient)).localMap ∨
        "10.42.0.1" ∈ GoMap.keys (RemoteEntriesMap
          (doInternalRefresh { mc := sharedAddressClient }
            (reloadInfo sharedAddressClient)))) :=
  ⟨(peers_key_classified_iff demoStore demoInfo "10.42.0.1" (by decide)).2.1.2
      ⟨cSelf, by decide, by decide, by decide⟩,
    (peers_key_classified_iff demoStore demoInfo "10.42.0.9" (by decide)).2.2 (by decide),
    by decide,
    (peers_key_classified_iff { mc := sharedAddressClient } (reloadInfo sharedAddressClient)
      "10.42.0.1" (by decide)).2.1.2 ⟨cHolder, by decide, by decide, by decide⟩⟩

/-- C4. First-seen-wins. Let the candidate containers be
`pre ++ c1 :: (mid ++ c2 :: post)`, where `c1` passes the filters, `c2` has
the bare IP of `c1`, and no container of `pre` that passes the filters has
it. Then the entries sequence holds exactly one Entry with that bare IP, the
one built from `c1` (marked as a peer when the bare IP is a key of the peers
map); the host of `c1` decides whether this Entry is in `local` or in
`remote`; and the loop computes the same with `c2` removed. -/
theorem first_seen_wins (ms : MetadataStore) (info : InfoFromMetadata)
    (pre mid post : List Container) (c1 c2 : Container)
    (hcand : (gatherCandidates ms.mc info).allContainers = pre ++ c1 :: (mid ++ c2 :: post))
    (h1 : passesFilters (gatherCandidates ms.mc info).peersNetworks c1 = true)
    (hkey : bareIP (refreshedInfo ms.mc info) c2 = bareIP (refreshedInfo ms.mc info) c1)
    (hfirst : ∀ c ∈ pre, passesFilters (gatherCandidates ms.mc info).peersNetworks c = true →
      bareIP (refreshedInfo ms.mc info) c ≠ bareIP (refreshedInfo ms.mc info) c1) :
    (Entries (doInternalRefresh ms info)).filter
        (fun e => splitFirst e.IPAddress == bareIP (refreshedInfo ms.mc info) c1) =
      [{ getEntryFromContainer (refreshedInfo ms.mc info) c1 with
          Peer := GoMap.contains (PeerEntriesMap (doInternalRefresh ms info))
            (bareIP (refreshedInfo ms.mc info) c1) }] ∧
    ((GoMap.getD (refreshedInfo ms.mc info).hostsMap c1.HostUUID {}).AgentIP =
        LocalHostIPAddress (doInternalRefresh ms info) →
      GoMap.get? (doInternalRefresh ms info).localMap (bareIP (refreshedInfo ms.mc info) c1) =
        some { getEntryFromContainer (refreshedInfo ms.mc info) c1 with
          Peer := GoMap.contains (PeerEntriesMap (doInternalRefresh ms info))
            (bareIP (refreshedInfo ms.mc info) c1) } ∧
      GoMap.get? (doInternalRefresh ms info).remote (bareIP (refreshedInfo ms.mc info) c1) =
        none) ∧
    ((GoMap.getD (refreshedInfo ms.mc info).hostsMap c1.HostUUID {}).AgentIP ≠
        LocalHostIPAddress (doInternalRefresh ms info) →
      GoMap.get? (doInternalRefresh ms info).remote (bareIP (refreshedInfo ms.mc info) c1) =
        some { getEntryFromContainer (refreshedInfo ms.mc info) c1 with
          Peer := GoMap.contains (PeerEntriesMap (doInternalRefresh ms info))
            (bareIP (refreshedInfo ms.mc info) c1) } ∧
      GoMap.get? (doInternalRefresh ms info).localMap (bareIP (refreshedInfo ms.mc info) c1) =
        none) ∧
    classify (refreshedInfo ms.mc info) (doInternalRefresh ms info).self
        (gatherCandidates ms.mc info).peersNetworks (PeerEntriesMap (doInternalRefresh ms info))
        (pre ++ c1 :: (mid ++ c2 :: post)) =
      classify (refreshedInfo ms.mc info) (doInternalRefresh ms info).self
        (gatherCandidates ms.mc info).peersNetworks (PeerEntriesMap (doInternalRefresh ms info))
        (pre ++ c1 :: (mid ++ post)) := by
  unfold PeerEntriesMap LocalHostIPAddress Entries
  rw [← retainedEntry_eq]
  -- `c1` is the first candidate that passes the filters with its bare IP
  have hf : firstFor (refreshedInfo ms.mc info) (gatherCandidates ms.mc info).peersNetworks
      (bareIP (refreshedInfo ms.mc info) c1) (gatherCandidates ms.mc info).allContainers =
        some c1 := by
    rw [hcand]
    unfold firstFor
    rw [List.find?_append]
    have hpre : List.find? (fun c =>
        passesFilters (gatherCandidates ms.mc info).peersNetworks c &&
          bareIP (refreshedInfo ms.mc info) c == bareIP (refreshedInfo ms.mc info) c1) pre =
        none := by
      rw [List.find?_eq_none]
      intro c hc hpc
      simp only [Bool.and_eq_true, beq_iff_eq] at hpc
      exact hfirst c hc hpc.1 hpc.2
    rw [hpre]
    simp [List.find?_cons, h1]
  have hhost := retainedEntry_HostIPAddress (refreshedInfo ms.mc info)
    (doInternalRefresh ms info).peersMap c1
  have hmem : retainedEntry (refreshedInfo ms.mc info) (doInternalRefresh ms info).peersMap c1 ∈
      (doInternalRefresh ms info).entries := by
    rw [refresh_entries_mem]
    exact ⟨c1, by rw [splitFirst_retainedEntry]; exact hf, rfl⟩
  refine ⟨?_, ?_, ?_, ?_⟩
  · have := filter_key_eq_singleton (fun e : Entry => splitFirst e.IPAddress) _ _
      (refresh_entries_nodup ms info) hmem
    simp only [splitFirst_retainedEntry] at this
    exact this
  · intro hh
    rw [← hhost] at hh
    refine ⟨(refresh_local_some ms info _ _).2 ⟨c1, hf, rfl, hh⟩, ?_⟩
    cases hr : GoMap.get? (doInternalRefresh ms info).remote (bareIP (refreshedInfo ms.mc info) c1) with
    | none => rfl
    | some e =>
      obtain ⟨c, hc, hec, hne⟩ := (refresh_remote_some ms info _ e).1 hr
      rw [hf] at hc
      cases hc
      rw [hec] at hne
      exact absurd hh hne
  · intro hh
    rw [← hhost] at hh
    refine ⟨(refresh_remote_some ms info _ _).2 ⟨c1, hf, rfl, hh⟩, ?_⟩
    cases hr : GoMap.get? (doInternalRefresh ms info).localMap (bareIP (refreshedInfo ms.mc info) c1) with
    | none => rfl
    | some e =>
      obtain ⟨c, hc, hec, heq⟩ := (refresh_local_some ms info _ e).1 hr
      rw [hf] at hc
      cases hc
      rw [hec] at heq
      exact absurd heq hh
  · have e1 : pre ++ c1 :: (mid ++ c2 :: post) = (pre ++ c1 :: mid) ++ (c2 :: post) := by simp
    have e2 : pre ++ c1 :: (mid ++ post) = (pre ++ c1 :: mid) ++ post := by simp
    have hseen : GoMap.getD (classify (refreshedInfo ms.mc info) (doInternalRefresh ms info).self
        (gatherCandidates ms.mc info).peersNetworks (doInternalRefresh ms info).peersMap
        (pre ++ c1 :: mid)).seen (bareIP (refreshedInfo ms.mc info) c2) false = true := by
      rw [(classify_inv _ _ _ _ _).seen_eq, hkey]
      obtain ⟨c, hc⟩ := (firstFor_isSome_iff (refreshedInfo ms.mc info)
        (gatherCandidates ms.mc info).peersNetworks (bareIP (refreshedInfo ms.mc info) c1)
        (pre ++ c1 :: mid)).2 ⟨c1, by simp, h1, rfl⟩
      rw [hc]; rfl
    rw [e1, classify_append _ _ _ _ (pre ++ c1 :: mid) (c2 :: post), List.foldl_cons,
      classifyStep_of_seen _ _ _ _ _ _ hseen, e2,
      classify_append _ _ _ _ (pre ++ c1 :: mid) post]

/-- C4, witness: on the concrete snapshot the address 10.42.0.5 is carried by
`cWebB` on the second host and, later in the candidate order, by `cWebA` on the
agent's host; the Entry retained is the one of `cWebB`, in `remote`. -/
theorem first_seen_wins_witness :
    (Entries (doInternalRefresh demoStore demoInfo)).filter
        (fun e => splitFirst e.IPAddress == "10.42.0.5") =
      [{ IPAddress := "10.42.0.5/16", HostIPAddress := "172.16.0.2", Self := false,
         Peer := false }] ∧
    GoMap.get? (doInternalRefresh demoStore demoInfo).remote "10.42.0.5" =
      some { IPAddress := "10.42.0.5/16", HostIPAddress := "172.16.0.2", Self := false,
             Peer := false } ∧
    GoMap.get? (doInternalRefresh demoStore demoInfo).localMap "10.42.0.5" = none :=
  have h := first_seen_wins demoStore demoInfo [cSelf, cSidekick] [cWebC] [] cWebB cWebA
    (by decide) (by decide) (by decide) (by decide)
  ⟨h.1, h.2.2.1 (by decide)⟩

/-- C5. `IsRemote` is false at a key of `local`, true at a key of `remote`
that is not a key of `local`, and false at a key of neither map. -/
theorem IsRemote_cases (ms : MetadataStore) (ip : String) :
    (ip ∈ GoMap.keys ms.localMap → IsRemote ms ip = false) ∧
    (ip ∈ GoMap.keys ms.remote → ip ∉ GoMap.keys ms.localMap → IsRemote ms ip = true) ∧
    (ip ∉ GoMap.keys ms.localMap → ip ∉ GoMap.keys ms.remote → IsRemote ms ip = false) := by
  refine ⟨?_, ?_, ?_⟩
  · intro h
    obtain ⟨e, he⟩ := (GoMap.mem_keys_iff _ _).1 h
    simp [IsRemote, he]
  · intro h h'
    obtain ⟨e, he⟩ := (GoMap.mem_keys_iff _ _).1 h
    rw [GoMap.not_mem_keys_iff] at h'
    simp [IsRemote, he, h']
  · intro h h'
    rw [GoMap.not_mem_keys_iff] at h h'
    simp [IsRemote, h, h']

/-- C5, witness: a local, a remote and an unknown address of the concrete
snapshot after a reload. -/
theorem IsRemote_cases_witness :
    IsRemote (Reload demoStore).1 "10.42.0.1" = false ∧
    IsRemote (Reload demoStore).1 "10.42.0.5" = true ∧
    IsRemote (Reload demoStore).1 "10.42.0.200" = false :=
  ⟨(IsRemote_cases (Reload demoStore).1 "10.42.0.1").1 (by decide),
   (IsRemote_cases (Reload demoStore).1 "10.42.0.5").2.1 (by decide) (by decide),
   (IsRemote_cases (Reload demoStore).1 "10.42.0.200").2.2 (by decide) (by decide)⟩

/-- C6. After `doInternalRefresh` the host address of the self Entry is the
AgentIP found for the self container's host UUID in the hosts map built from
all hosts; every Entry of `local` has the host address of the self Entry,
every Entry of `remote` a different one; and the host address of each such
Entry is the AgentIP found for the host UUID of the candidate container it
was built from. -/
theorem classified_by_host (ms : MetadataStore) (info : InfoFromMetadata) :
    LocalHostIPAddress (doInternalRefresh ms info) =
      (GoMap.getD (getHostsMapFromHostsArray (gatherCandidates ms.mc info).allHosts)
        info.selfContainer.HostUUID {}).AgentIP ∧
    (∀ k e, GoMap.get? (doInternalRefresh ms info).localMap k = some e →
      e.HostIPAddress = LocalHostIPAddress (doInternalRefresh ms info) ∧
      ∃ c ∈ (gatherCandidates ms.mc info).allContainers,
        bareIP (refreshedInfo ms.mc info) c = k ∧
        e.HostIPAddress =
          (GoMap.getD (getHostsMapFromHostsArray (gatherCandidates ms.mc info).allHosts)
            c.HostUUID {}).AgentIP) ∧
    (∀ k e, GoMap.get? (RemoteEntriesMap (doInternalRefresh ms info)) k = some e →
      e.HostIPAddress ≠ LocalHostIPAddress (doInternalRefresh ms info) ∧
      ∃ c ∈ (gatherCandidates ms.mc info).allContainers,
        bareIP (refreshedInfo ms.mc info) c = k ∧
        e.HostIPAddress =
          (GoMap.getD (getHostsMapFromHostsArray (gatherCandidates ms.mc info).allHosts)
            c.HostUUID {}).AgentIP) := by
  unfold LocalHostIPAddress RemoteEntriesMap
  refine ⟨rfl, ?_, ?_⟩
  · intro k e he
    obtain ⟨c, hc, hec, hh⟩ := (refresh_local_some ms info k e).1 he
    refine ⟨hh, c, (firstFor_some hc).1, (firstFor_some hc).2.2, ?_⟩
    rw [hec, retainedEntry_HostIPAddress]
    rfl
  · intro k e he
    obtain ⟨c, hc, hec, hh⟩ := (refresh_remote_some ms info k e).1 he
    refine ⟨hh, c, (firstFor_some hc).1, (firstFor_some hc).2.2, ?_⟩
    rw [hec, retainedEntry_HostIPAddress]
    rfl

/-- C6, witness: the local and a remote Entry of the concrete snapshot. -/
theorem classified_by_host_witness :
    (GoMap.get? (doInternalRefresh demoStore demoInfo).localMap "10.42.0.1").map
        Entry.HostIPAddress = some "172.16.0.1" ∧
    (GoMap.get? (RemoteEntriesMap (doInternalRefresh demoStore demoInfo)) "10.42.0.7").map
        Entry.HostIPAddress = some "172.16.0.3" ∧
    LocalHostIPAddress (doInternalRefresh demoStore demoInfo) = "172.16.0.1" ∧
    (∃ c ∈ (gatherCandidates demoStore.mc demoInfo).allContainers,
      bareIP (refreshedInfo demoStore.mc demoInfo) c = "10.42.0.7" ∧
      "172.16.0.3" = (GoMap.getD (getHostsMapFromHostsArray
        (gatherCandidates demoStore.mc demoInfo).allHosts) c.HostUUID {}).AgentIP) :=
  ⟨by decide, by decide, by decide,
    ((classified_by_host demoStore demoInfo).2.2 "10.42.0.7"
      { IPAddress := "10.42.0.7/16", HostIPAddress := "172.16.0.3", Self := false,
        Peer := false } (by decide)).2⟩

/-- C7, counterexample. The self service links to two services whose
containers share the address 10.42.0.5. The two link lists hold the same
bindings, so they are one and the same Go map, visited in two orders; both
reloads start from the same empty store and succeed; yet the peers map binds
10.42.0.5 to the host of the container visited last, a different Entry in
each run. -/
theorem Reload_depends_on_visit_order :
    linksAlphaFirst.Perm linksBetaFirst ∧
    (Reload { mc := linkedClient linksAlphaFirst }).2 = none ∧
    (Reload { mc := linkedClient linksBetaFirst }).2 = none ∧
    GoMap.get? (PeerEntriesMap (Reload { mc := linkedClient linksAlphaFirst }).1) "10.42.0.5" =
      some { IPAddress := "10.42.0.5/16", HostIPAddress := "172.16.0.3", Self := false,
             Peer := true } ∧
    GoMap.get? (PeerEntriesMap (Reload { mc := linkedClient linksBetaFirst }).1) "10.42.0.5" =
      some { IPAddress := "10.42.0.5/16", HostIPAddress := "172.16.0.2", Self := false,
             Peer := true } :=
  ⟨List.Perm.swap _ _ _, by decide, by decide, by decide, by decide⟩

/-- C7, amended. With the same metadata answers, the maps of the answers
being visited in the same order, a successful `Reload` yields the same entries
sequence, the same four maps, the same self Entry and the same local subnet
from any two prior states of the store; and a second `Reload` on unchanged
answers reproduces the result of the first. -/
theorem Reload_depends_on_answers_only (ms1 ms2 : MetadataStore) (hmc : ms1.mc = ms2.mc)
    (hok : (Reload ms1).2 = none) :
    (Reload ms2).2 = none ∧
    Entries (Reload ms2).1 = Entries (Reload ms1).1 ∧
    (Reload ms2).1.localMap = (Reload ms1).1.localMap ∧
    RemoteEntriesMap (Reload ms2).1 = RemoteEntriesMap (Reload ms1).1 ∧
    PeerEntriesMap (Reload ms2).1 = PeerEntriesMap (Reload ms1).1 ∧
    RemoteNonPeerEntriesMap (Reload ms2).1 = RemoteNonPeerEntriesMap (Reload ms1).1 ∧
    (Reload ms2).1.self = (Reload ms1).1.self ∧
    LocalSubnet (Reload ms2).1 = LocalSubnet (Reload ms1).1 ∧
    Reload (Reload ms1).1 = Reload ms1 := by
  have hst := Reload_store_eq ms1 ms2 hmc hok
  have hok2 : (Reload ms2).2 = none := by rw [← Reload_error_eq ms1 ms2 hmc]; exact hok
  refine ⟨hok2, ?_, ?_, ?_, ?_, ?_, ?_, ?_, ?_⟩
  · rw [hst]
  · rw [hst]
  · rw [hst]
  · rw [hst]
  · rw [hst]
  · rw [hst]
  · rw [hst]
  · have h1 := Reload_store_eq ms1 (Reload ms1).1 (Reload_mc ms1).symm hok
    have h2 := Reload_error_eq ms1 (Reload ms1).1 (Reload_mc ms1).symm
    exact Prod.ext h1 h2.symm

/-- C7, witness: the stale store and the empty store, on the same answers. -/
theorem Reload_depends_on_answers_only_witness :
    Entries (Reload { staleStore with mc := demoClient }).1 = Entries (Reload demoStore).1 ∧
    PeerEntriesMap (Reload { staleStore with mc := demoClient }).1 =
      PeerEntriesMap (Reload demoStore).1 :=
  have h := Reload_depends_on_answers_only demoStore { staleStore with mc := demoClient }
    rfl (by decide)
  ⟨h.2.1, h.2.2.2.2.1⟩

/-- C8. Whenever `Reload` returns an error, the store is as it was before the
call, in every field. -/
theorem Reload_all_or_nothing (ms : MetadataStore) (h : (Reload ms).2 ≠ none) :
    (Reload ms).1 = ms :=
  Reload_of_error ms h

/-- C8, witness: the list of containers cannot be fetched; the store keeps
the topology loaded before. -/
theorem Reload_all_or_nothing_witness :
    (Reload { staleStore with mc := containersDownClient }).2 =
      some "Get /containers: connection refused" ∧
    (Reload { staleStore with mc := containersDownClient }).1 =
      { staleStore with mc := containersDownClient } :=
  ⟨by decide, Reload_all_or_nothing { staleStore with mc := containersDownClient } (by decide)⟩

/-- C9, counterexample. A region is configured and the environments of the
region cannot be fetched; `Reload` returns no error, and the entries sequence
and the remote map of the store are no longer those held before the call. -/
theorem Reload_continues_without_region :
    staleStore.mc.GetRegionName.1 = "region-1" ∧
    staleStore.mc.GetEnvironments.2 = some "Get /environments: connection refused" ∧
    (Reload staleStore).2 = none ∧
    Entries (Reload staleStore).1 ≠ Entries staleStore ∧
    RemoteEntriesMap (Reload staleStore).1 ≠ RemoteEntriesMap staleStore := by
  decide

/-- C9, amended. When the environments of the region cannot be fetched, the
refresh goes on with the local environment alone: `Reload` returns the error
it returns on the same answers without a region (none when the other fetches
succeed and the self network is found), and the entries sequence, the four
maps, the self Entry and the local subnet are those computed on the same
answers without a region. -/
theorem Reload_region_fetch_error (ms : MetadataStore) (err : String)
    (henv : ms.mc.GetEnvironments.2 = some err) :
    (Reload ms).2 = (Reload { ms with mc := withoutRegion ms.mc }).2 ∧
    Entries (Reload ms).1 = Entries (Reload { ms with mc := withoutRegion ms.mc }).1 ∧
    (Reload ms).1.localMap = (Reload { ms with mc := withoutRegion ms.mc }).1.localMap ∧
    RemoteEntriesMap (Reload ms).1 =
      RemoteEntriesMap (Reload { ms with mc := withoutRegion ms.mc }).1 ∧
    PeerEntriesMap (Reload ms).1 =
      PeerEntriesMap (Reload { ms with mc := withoutRegion ms.mc }).1 ∧
    RemoteNonPeerEntriesMap (Reload ms).1 =
      RemoteNonPeerEntriesMap (Reload { ms with mc := withoutRegion ms.mc }).1 ∧
    (Reload ms).1.self = (Reload { ms with mc := withoutRegion ms.mc }).1.self ∧
    LocalSubnet (Reload ms).1 = LocalSubnet (Reload { ms with mc := withoutRegion ms.mc }).1 := by
  have herr := Reload_error_withoutRegion ms
  unfold Entries RemoteEntriesMap PeerEntriesMap RemoteNonPeerEntriesMap LocalSubnet
  refine ⟨herr.symm, ?_⟩
  cases h : (Reload ms).2 with
  | some e =>
    have h1 : (Reload ms).2 ≠ none := by rw [h]; simp
    have h2 : (Reload { ms with mc := withoutRegion ms.mc }).2 ≠ none := by rw [herr]; exact h1
    rw [Reload_of_error ms h1, Reload_of_error _ h2]
    exact ⟨rfl, rfl, rfl, rfl, rfl, rfl, rfl⟩
  | none =>
    have h2 : (Reload { ms with mc := withoutRegion ms.mc }).2 = none := by rw [herr]; exact h
    rw [Reload_of_success ms h, Reload_of_success _ h2]
    have hd := doInternalRefresh_environments_error
      { ms with
        localSubnet := (GetBridgeInfo (reloadInfo ms.mc).selfNetwork ms.mc.GetSelfHost.1).2
        info := some (reloadInfo ms.mc) }
      { ms with
        mc := withoutRegion ms.mc
        localSubnet := (GetBridgeInfo (reloadInfo ms.mc).selfNetwork ms.mc.GetSelfHost.1).2
        info := some (reloadInfo (withoutRegion ms.mc)) }
      (reloadInfo ms.mc) err henv rfl
    exact ⟨hd.1, hd.2.1, hd.2.2.1, hd.2.2.2.1, hd.2.2.2.2.1, hd.2.2.2.2.2, rfl⟩

/-- C9, witness: the stale store, whose region cannot be fetched, reloads to
the topology of the same answers without a region. -/
theorem Reload_region_fetch_error_witness :
    (Reload staleStore).2 = none ∧
    Entries (Reload staleStore).1 =
      Entries (Reload { staleStore with mc := withoutRegion staleStore.mc }).1 :=
  have h := Reload_region_fetch_error staleStore "Get /environments: connection refused"
    (by decide)
  ⟨by decide, h.2.1⟩

/-- C10, counterexample. The agent takes its network from a holder
container, and the holder is stopped; `Reload` succeeds and no Entry of the
entries sequence has the self flag. -/
theorem Reload_without_self_entry :
    (Reload { mc := routerClient }).2 = none ∧
    (Entries (Reload { mc := routerClient }).1).filter (fun e => e.Self) = [] := by
  decide

/-- C10, amended. After `doInternalRefresh` at most one Entry of the entries
sequence has the self flag; there is exactly one precisely when the first
candidate container that passes the filters with the bare IP of the self
container has the primary address of the self container (and none
otherwise, in particular when no candidate with that address passes the
filters). -/
theorem self_entry_at_most_one (ms : MetadataStore) (info : InfoFromMetadata) :
    ((Entries (doInternalRefresh ms info)).filter (fun e => e.Self)).length ≤ 1 ∧
    (((Entries (doInternalRefresh ms info)).filter (fun e => e.Self)).length = 1 ↔
      ∃ c, firstFor (refreshedInfo ms.mc info) (gatherCandidates ms.mc info).peersNetworks
          (bareIP (refreshedInfo ms.mc info) info.selfContainer)
          (gatherCandidates ms.mc info).allContainers = some c ∧
        c.PrimaryIp = info.selfContainer.PrimaryIp) := by
  unfold Entries
  have hle : ((doInternalRefresh ms info).entries.filter (fun e => e.Self)).length ≤ 1 := by
    have hsub : (doInternalRefresh ms info).entries.filter (fun e => e.Self) =
        ((doInternalRefresh ms info).entries.filter (fun e => splitFirst e.IPAddress ==
          bareIP (refreshedInfo ms.mc info) info.selfContainer)).filter (fun e => e.Self) := by
      rw [List.filter_filter]
      apply List.filter_congr
      intro e he
      cases hs : e.Self
      · simp
      · simp [(refresh_self_entry ms info e he hs).1]
    rw [hsub]
    exact le_trans (List.length_filter_le _ _)
      (length_filter_key_le_one (fun e : Entry => splitFirst e.IPAddress) _ _
        (refresh_entries_nodup ms info))
  refine ⟨hle, ?_, ?_⟩
  · intro h1
    have hpos : 0 < ((doInternalRefresh ms info).entries.filter (fun e => e.Self)).length := by
      rw [h1]; exact Nat.one_pos
    obtain ⟨e, he⟩ := List.exists_mem_of_length_pos hpos
    rw [List.mem_filter] at he
    exact (refresh_self_entry ms info e he.1 he.2).2
  · rintro ⟨c, hc, hp⟩
    have hmem : retainedEntry (refreshedInfo ms.mc info) (doInternalRefresh ms info).peersMap c ∈
        (doInternalRefresh ms info).entries := by
      rw [refresh_entries_mem]
      refine ⟨c, ?_, rfl⟩
      rw [splitFirst_retainedEntry, (firstFor_some hc).2.2]
      exact hc
    have hself : (retainedEntry (refreshedInfo ms.mc info)
        (doInternalRefresh ms info).peersMap c).Self = true := by
      rw [retainedEntry_Self]
      simpa [refreshedInfo] using hp
    have hin : retainedEntry (refreshedInfo ms.mc info) (doInternalRefresh ms info).peersMap c ∈
        (doInternalRefresh ms info).entries.filter (fun e => e.Self) :=
      List.mem_filter.2 ⟨hmem, hself⟩
    have hpos := List.length_pos_of_mem hin
    omega

/-- C10, witness: the concrete snapshot has exactly one Entry with the self
flag, the one of the agent's container. -/
theorem self_entry_at_most_one_witness :
    ((Entries (doInternalRefresh demoStore demoInfo)).filter (fun e => e.Self)).length = 1 :=
  (self_entry_at_most_one demoStore demoInfo).2.2 ⟨cSelf, by decide, by decide⟩

set_option maxRecDepth 100000 in
/-- C11, the code at the failing input. The templates hold the built-in
defaults after a successful `Reload`; then `ike.conf` appears and holds a lone
opening brace. `Reload` returns an error and leaves the CHILD_SA bytes and
the revision as they were, but the cached IKE bytes are now the malformed
document, and `NewIkeConf` no longer returns what it returned before. -/
theorem Reload_keeps_malformed_ike :
    (Templates.Reload (exampleLibs plainDigest) (configDir none none)
      { ConfigDir := "." }).2 = none ∧
    (Templates.Reload (exampleLibs plainDigest) (configDir (some (bytesOf "\x7b")) none)
      loadedDefaults).2 = some "unexpected end of JSON input" ∧
    Templates.Revision (Templates.Reload (exampleLibs plainDigest)
      (configDir (some (bytesOf "\x7b")) none) loadedDefaults).1 =
      Templates.Revision loadedDefaults ∧
    Templates.NewChildSaConf (exampleLibs plainDigest) (Templates.Reload
      (exampleLibs plainDigest) (configDir (some (bytesOf "\x7b")) none) loadedDefaults).1 =
      Templates.NewChildSaConf (exampleLibs plainDigest) loadedDefaults ∧
    loadedDefaults.ikeConfTemplate = defaultIkeConf ∧
    (Templates.Reload (exampleLibs plainDigest) (configDir (some (bytesOf "\x7b")) none)
      loadedDefaults).1.ikeConfTemplate = bytesOf "\x7b" ∧
    Templates.NewIkeConf (exampleLibs plainDigest) loadedDefaults = "defaults" ∧
    Templates.NewIkeConf (exampleLibs plainDigest) (Templates.Reload
      (exampleLibs plainDigest) (configDir (some (bytesOf "\x7b")) none) loadedDefaults).1 =
      "" := by
  decide

set_option maxRecDepth 100000 in
/-- C12, counterexample. Two directories: in the first `ike.conf` is an empty
JSON object and `childsa.conf` is a blank followed by an empty object; in the
second the blank ends `ike.conf` instead. Both pairs decode, both reloads
succeed, the IKE documents differ and so do the CHILD_SA documents; yet the
bytes of the first document followed by those of the second are the same
sequence in both loads, which is all the digest is given, and the revisions
are equal. -/
theorem revision_blind_to_document_boundary :
    (Templates.Reload (exampleLibs plainDigest)
      (configDir (some (bytesOf "\x7b\x7d")) (some (bytesOf " \x7b\x7d"))) {}).2 = none ∧
    (Templates.Reload (exampleLibs plainDigest)
      (configDir (some (bytesOf "\x7b\x7d ")) (some (bytesOf "\x7b\x7d"))) {}).2 = none ∧
    (Templates.Reload (exampleLibs plainDigest)
      (configDir (some (bytesOf "\x7b\x7d")) (some (bytesOf " \x7b\x7d")))
        {}).1.ikeConfTemplate ≠
      (Templates.Reload (exampleLibs plainDigest)
        (configDir (some (bytesOf "\x7b\x7d ")) (some (bytesOf "\x7b\x7d")))
          {}).1.ikeConfTemplate ∧
    (Templates.Reload (exampleLibs plainDigest)
      (configDir (some (bytesOf "\x7b\x7d")) (some (bytesOf " \x7b\x7d")))
        {}).1.childSaConfTemplate ≠
      (Templates.Reload (exampleLibs plainDigest)
        (configDir (some (bytesOf "\x7b\x7d ")) (some (bytesOf "\x7b\x7d")))
          {}).1.childSaConfTemplate ∧
    (Templates.Reload (exampleLibs plainDigest)
      (configDir (some (bytesOf "\x7b\x7d")) (some (bytesOf " \x7b\x7d")))
        {}).1.ikeConfTemplate ++
      (Templates.Reload (exampleLibs plainDigest)
        (configDir (some (bytesOf "\x7b\x7d")) (some (bytesOf " \x7b\x7d")))
          {}).1.childSaConfTemplate =
      (Templates.Reload (exampleLibs plainDigest)
        (configDir (some (bytesOf "\x7b\x7d ")) (some (bytesOf "\x7b\x7d")))
          {}).1.ikeConfTemplate ++
      (Templates.Reload (exampleLibs plainDigest)
        (configDir (some (bytesOf "\x7b\x7d ")) (some (bytesOf "\x7b\x7d")))
          {}).1.childSaConfTemplate ∧
    Templates.Revision (Templates.Reload (exampleLibs plainDigest)
      (configDir (some (bytesOf "\x7b\x7d")) (some (bytesOf " \x7b\x7d"))) {}).1 =
      Templates.Revision (Templates.Reload (exampleLibs plainDigest)
        (configDir (some (bytesOf "\x7b\x7d ")) (some (bytesOf "\x7b\x7d"))) {}).1 := by
  decide

/-- C12, amended. For two successful reloads, the digest being free of
collisions on the two byte sequences it is applied to, the revisions are
equal exactly when the IKE bytes followed by the CHILD_SA bytes are the same
sequence in both loads. Hence, when the CHILD_SA documents are equal, the
revisions are equal exactly when the IKE documents are, and when the IKE
documents are equal, exactly when the CHILD_SA documents are. -/
theorem revision_eq_iff_concatenation_eq {IKEConf ChildSAConf : Type}
    (lib : TemplateLibs IKEConf ChildSAConf) (fs1 fs2 : ConfigFiles) (t1 t2 : Templates)
    (hok1 : (Templates.Reload lib fs1 t1).2 = none)
    (hok2 : (Templates.Reload lib fs2 t2).2 = none)
    (hfree : lib.sha1Hex ((Templates.Reload lib fs1 t1).1.ikeConfTemplate ++
          (Templates.Reload lib fs1 t1).1.childSaConfTemplate) =
        lib.sha1Hex ((Templates.Reload lib fs2 t2).1.ikeConfTemplate ++
          (Templates.Reload lib fs2 t2).1.childSaConfTemplate) →
      (Templates.Reload lib fs1 t1).1.ikeConfTemplate ++
          (Templates.Reload lib fs1 t1).1.childSaConfTemplate =
        (Templates.Reload lib fs2 t2).1.ikeConfTemplate ++
          (Templates.Reload lib fs2 t2).1.childSaConfTemplate) :
    (Templates.Revision (Templates.Reload lib fs1 t1).1 =
        Templates.Revision (Templates.Reload lib fs2 t2).1 ↔
      (Templates.Reload lib fs1 t1).1.ikeConfTemplate ++
          (Templates.Reload lib fs1 t1).1.childSaConfTemplate =
        (Templates.Reload lib fs2 t2).1.ikeConfTemplate ++
          (Templates.Reload lib fs2 t2).1.childSaConfTemplate) ∧
    ((Templates.Reload lib fs1 t1).1.childSaConfTemplate =
        (Templates.Reload lib fs2 t2).1.childSaConfTemplate →
      (Templates.Revision (Templates.Reload lib fs1 t1).1 =
          Templates.Revision (Templates.Reload lib fs2 t2).1 ↔
        (Templates.Reload lib fs1 t1).1.ikeConfTemplate =
          (Templates.Reload lib fs2 t2).1.ikeConfTemplate)) ∧
    ((Templates.Reload lib fs1 t1).1.ikeConfTemplate =
        (Templates.Reload lib fs2 t2).1.ikeConfTemplate →
      (Templates.Revision (Templates.Reload lib fs1 t1).1 =
          Templates.Revision (Templates.Reload lib fs2 t2).1 ↔
        (Templates.Reload lib fs1 t1).1.childSaConfTemplate =
          (Templates.Reload lib fs2 t2).1.childSaConfTemplate)) := by
  have hiff : Templates.Revision (Templates.Reload lib fs1 t1).1 =
        Templates.Revision (Templates.Reload lib fs2 t2).1 ↔
      (Templates.Reload lib fs1 t1).1.ikeConfTemplate ++
          (Templates.Reload lib fs1 t1).1.childSaConfTemplate =
        (Templates.Reload lib fs2 t2).1.ikeConfTemplate ++
          (Templates.Reload lib fs2 t2).1.childSaConfTemplate := by
    unfold Templates.Revision
    rw [Templates.revision_of_success lib fs1 t1 hok1,
      Templates.revision_of_success lib fs2 t2 hok2]
    exact ⟨hfree, fun h => by rw [h]⟩
  refine ⟨hiff, ?_, ?_⟩
  · intro hchild
    rw [hiff, hchild]
    exact ⟨fun h => List.append_cancel_right h, fun h => by rw [h]⟩
  · intro hike
    rw [hiff, hike]
    exact ⟨fun h => List.append_cancel_left h, fun h => by rw [h]⟩

set_option maxRecDepth 100000 in
/-- C12, witness: the built-in defaults against a directory whose `ike.conf`
is an empty JSON object; the CHILD_SA documents are equal, the IKE documents
are not, and the revisions differ. -/
theorem revision_eq_iff_concatenation_eq_witness :
    Templates.Revision (Templates.Reload (exampleLibs plainDigest)
        (configDir none none) {}).1 ≠
      Templates.Revision (Templates.Reload (exampleLibs plainDigest)
        (configDir (some (bytesOf "\x7b\x7d")) none) {}).1 :=
  fun h =>
    absurd (((revision_eq_iff_concatenation_eq (exampleLibs plainDigest)
      (configDir none none) (configDir (some (bytesOf "\x7b\x7d")) none) {} {}
      (by decide) (by decide) (by decide)).2.1 (by decide)).1 h) (by decide)

/-- C13. In an iteration of the monitor where the self service is active,
the hosts and the self host are fetched, a connection to the daemon is
obtained and the SAs are listed, the names of the `Initiate` calls are
pairwise distinct, and a name is initiated exactly when it is `child-`
followed by the AgentIP of a host whose UUID is not the self host's and which
is the remote host of no listed SA; the names do not depend on the answers of
`Initiate`. -/
theorem tick_initiates_missing_hosts (mc : MetadataClient) (d : Daemon)
    (hsvc : mc.GetSelfService.2 = none) (hact : mc.GetSelfService.1.State = "active")
    (hhosts : mc.GetHosts.2 = none) (hself : mc.GetSelfHost.2 = none)
    (hconn : (getClient d).2 = none) (hsas : d.ListSas.2 = none) :
    (initiatedNames (monitorTick mc d).calls).Nodup ∧
    (∀ name, name ∈ initiatedNames (monitorTick mc d).calls ↔
      ∃ h ∈ mc.GetHosts.1, h.UUID ≠ mc.GetSelfHost.1.UUID ∧ name = "child-" ++ h.AgentIP ∧
        ∀ sa ∈ d.ListSas.1, ∀ kv ∈ sa, kv.2.Remote_host ≠ h.AgentIP) ∧
    (∀ answers : String → Option String,
      initiatedNames (monitorTick mc { d with Initiate := answers }).calls =
        initiatedNames (monitorTick mc d).calls) := by
  have hnames : ∀ d' : Daemon, (getClient d').2 = none → d'.ListSas = d.ListSas →
      initiatedNames (monitorTick mc d').calls =
        ((markFound (buildHostsMap mc.GetHosts.1 mc.GetSelfHost.1) d.ListSas.1).filter
          (fun kv => !kv.2)).map (fun kv => "child-" ++ kv.1) := by
    intro d' hc hl
    rw [monitorTick_of_success mc d' hsvc hact hhosts hself hc (by rw [hl]; exact hsas)]
    simp only [initiatedNames_append, getClient] at *
    rw [initiatedNames_getClientLoop, initiatedNames_initiateMissing, hl]
    simp [initiatedNames]
  have hnd := markFound_nodup _ d.ListSas.1
    (buildHostsMap_nodup mc.GetHosts.1 mc.GetSelfHost.1)
  refine ⟨?_, ?_, ?_⟩
  · rw [hnames d hconn rfl]
    have hkeys : (((markFound (buildHostsMap mc.GetHosts.1 mc.GetSelfHost.1)
        d.ListSas.1).filter (fun kv => !kv.2)).map Prod.fst).Nodup :=
      List.Nodup.sublist (List.Sublist.map _ (List.filter_sublist _)) hnd
    have := List.Nodup.map (f := fun k : String => "child-" ++ k)
      (fun a b h => String.append_left_cancel _ a b h) hkeys
    rw [List.map_map] at this
    exact this
  · intro name
    rw [hnames d hconn rfl, List.mem_map]
    constructor
    · rintro ⟨⟨k, v⟩, hkv, rfl⟩
      rw [List.mem_filter] at hkv
      have hv : v = false := by simpa using hkv.2
      subst hv
      have hget := (GoMap.mem_iff_get? _ hnd k false).1 hkv.1
      rw [markFound_get?] at hget
      split at hget
      · exact absurd hget (by simp)
      · rename_i hno
        rw [buildHostsMap_get?] at hget
        split at hget
        · rename_i hex
          obtain ⟨h, hh, hu, hk⟩ := hex
          refine ⟨h, hh, hu, by rw [hk], ?_⟩
          intro sa hsa kv hkv' heq
          exact hno ⟨sa, hsa, kv, hkv', by rw [heq, hk]⟩
        · exact absurd hget (by simp)
    · rintro ⟨h, hh, hu, rfl, hno⟩
      refine ⟨(h.AgentIP, false), ?_, rfl⟩
      rw [List.mem_filter]
      refine ⟨(GoMap.mem_iff_get? _ hnd _ _).2 ?_, by simp⟩
      rw [markFound_get?, if_neg, buildHostsMap_get?, if_pos ⟨h, hh, hu, rfl⟩]
      rintro ⟨sa, hsa, kv, hkv, heq⟩
      exact hno sa hsa kv hkv heq
  · intro answers
    rw [hnames d hconn rfl]
    exact hnames { d with Initiate := answers } hconn rfl

/-- C13, witness: three hosts besides the self host, SAs to two of them; the
one `Initiate` is for the third. -/
theorem tick_initiates_missing_hosts_witness :
    initiatedNames (monitorTick monitorClient daemonTwoSas).calls = ["child-172.16.0.4"] ∧
    ∀ answers : String → Option String,
      initiatedNames (monitorTick monitorClient
        { daemonTwoSas with Initiate := answers }).calls =
        initiatedNames (monitorTick monitorClient daemonTwoSas).calls :=
  ⟨by decide,
    (tick_initiates_missing_hosts monitorClient daemonTwoSas (by decide) (by decide)
      (by decide) (by decide) (by decide) (by decide)).2.2⟩

/-- C14. In an iteration of the monitor where the state of the self service
is not "active", no call is made to the tunnel daemon and none is deferred. -/
theorem tick_inactive_no_daemon_call (mc : MetadataClient) (d : Daemon)
    (h : mc.GetSelfService.1.State ≠ "active") :
    (monitorTick mc d).calls = [] ∧ (monitorTick mc d).deferred = [] := by
  unfold monitorTick
  split
  · exact ⟨rfl, rfl⟩
  · have hb : (mc.GetSelfService.1.State != "active") = true := by simpa using h
    rw [if_pos hb]
    exact ⟨rfl, rfl⟩

/-- C14, witness: the self service is being upgraded. -/
theorem tick_inactive_no_daemon_call_witness :
    (monitorTick upgradingClient daemonTwoSas).calls = [] ∧
      (monitorTick upgradingClient daemonTwoSas).deferred = [] :=
  tick_inactive_no_daemon_call upgradingClient daemonTwoSas (by decide)

/-- C15. For a frame read, the responder calls `Reply` exactly when the
operation is Request, the destination of the frame is the broadcast address
or the hardware address of the listening interface, and `IsRemote` holds of
the text of the target IP; it then makes one call, with the request, the
hardware address of the interface and the target IP of the request. So a
frame whose operation is not Request, and a request whose target is a key of
`local` or no key of `remote`, get no reply. -/
theorem arp_reply_iff (db : MetadataStore) (l : ArpListener) (arpRequest : ArpPacket)
    (iface : EthernetFrame) :
    ((serveFrame db l arpRequest iface).1 ≠ [] ↔
      arpRequest.Operation = OperationRequest ∧
      (iface.Destination = ethernetBroadcast ∨ iface.Destination = l.HardwareAddr) ∧
      IsRemote db (l.ipString arpRequest.TargetIP) = true) ∧
    ((serveFrame db l arpRequest iface).1 ≠ [] →
      (serveFrame db l arpRequest iface).1 =
        [{ request := arpRequest, hwAddr := l.HardwareAddr, ip := arpRequest.TargetIP }]) ∧
    (arpRequest.Operation ≠ OperationRequest → (serveFrame db l arpRequest iface).1 = []) ∧
    (l.ipString arpRequest.TargetIP ∈ GoMap.keys db.localMap →
      (serveFrame db l arpRequest iface).1 = []) ∧
    (l.ipString arpRequest.TargetIP ∉ GoMap.keys (RemoteEntriesMap db) →
      (serveFrame db l arpRequest iface).1 = []) := by
  have hform : (serveFrame db l arpRequest iface).1 =
      if arpRequest.Operation = OperationRequest ∧
        (iface.Destination = ethernetBroadcast ∨ iface.Destination = l.HardwareAddr) ∧
        IsRemote db (l.ipString arpRequest.TargetIP) = true then
        [{ request := arpRequest, hwAddr := l.HardwareAddr, ip := arpRequest.TargetIP }]
      else [] := by
    unfold serveFrame
    by_cases h1 : arpRequest.Operation = OperationRequest
    · by_cases h2 : iface.Destination = ethernetBroadcast
      · by_cases h3 : IsRemote db (l.ipString arpRequest.TargetIP) = true
        · simp [h1, h2, h3]
        · simp [h1, h2, h3]
      · by_cases h2' : iface.Destination = l.HardwareAddr
        · by_cases h3 : IsRemote db (l.ipString arpRequest.TargetIP) = true
          · simp [h1, h2, h2', h3]
          · simp [h1, h2, h2', h3]
        · simp [h1, h2, h2']
    · simp [h1]
  unfold RemoteEntriesMap
  refine ⟨?_, ?_, ?_, ?_, ?_⟩
  · rw [hform]
    split <;> simp_all
  · rw [hform]
    split <;> simp
  · intro h
    rw [hform, if_neg (fun hc => h hc.1)]
  · intro h
    rw [hform, if_neg]
    rintro ⟨-, -, h3⟩
    exact ((IsRemote_eq_true_iff db _).1 h3).1 h
  · intro h
    rw [hform, if_neg]
    rintro ⟨-, -, h3⟩
    exact h ((IsRemote_eq_true_iff db _).1 h3).2

/-- C15, witness: after a reload of the concrete snapshot, a broadcast
request for the remote address 10.42.0.5 gets one reply with the hardware
address of the interface, and the same packet with the operation Reply, a
request for the local address 10.42.0.1 and a request for the unknown address
10.42.0.200 get none. -/
theorem arp_reply_iff_witness :
    (serveFrame (Reload demoStore).1 demoListener requestForRemote
        { Destination := ethernetBroadcast }).1 =
      [{ request := requestForRemote, hwAddr := [2, 66, 10, 42, 0, 1],
         ip := [10, 42, 0, 5] }] ∧
    (serveFrame (Reload demoStore).1 demoListener
        { requestForRemote with Operation := OperationReply }
        { Destination := ethernetBroadcast }).1 = [] ∧
    (serveFrame (Reload demoStore).1 demoListener
        { requestForRemote with TargetIP := [10, 42, 0, 1] }
        { Destination := ethernetBroadcast }).1 = [] ∧
    (serveFrame (Reload demoStore).1 demoListener
        { requestForRemote with TargetIP := [10, 42, 0, 200] }
        { Destination := ethernetBroadcast }).1 = [] :=
  ⟨(arp_reply_iff (Reload demoStore).1 demoListener requestForRemote
      { Destination := ethernetBroadcast }).2.1 (by decide),
   (arp_reply_iff (Reload demoStore).1 demoListener
      { requestForRemote with Operation := OperationReply }
      { Destination := ethernetBroadcast }).2.2.1 (by decide),
   (arp_reply_iff (Reload demoStore).1 demoListener
      { requestForRemote with TargetIP := [10, 42, 0, 1] }
      { Destination := ethernetBroadcast }).2.2.2.1 (by decide),
   (arp_reply_iff (Reload demoStore).1 demoListener
      { requestForRemote with TargetIP := [10, 42, 0, 200] }
      { Destination := ethernetBroadcast }).2.2.2.2 (by decide)⟩

/-- C16, the code at the failing input. Two iterations of the monitor with an
active self service and a daemon that accepts connections: each iteration
opens a connection, no `Close` is ever called, and both closes are still
deferred after the second iteration; whatever the answers, no iteration of
the loop calls `Close`. -/
theorem monitor_never_closes :
    (monitorSAs [(monitorClient, daemonTwoSas), (monitorClient, daemonTwoSas)]).calls =
      [DaemonCall.connect true, DaemonCall.listSas,
        DaemonCall.initiate "child-172.16.0.4" false,
        DaemonCall.connect true, DaemonCall.listSas,
        DaemonCall.initiate "child-172.16.0.4" false] ∧
    (monitorSAs [(monitorClient, daemonTwoSas), (monitorClient, daemonTwoSas)]).deferred =
      [DaemonCall.close, DaemonCall.close] ∧
    ∀ ticks, DaemonCall.close ∉ (monitorSAs ticks).calls :=
  ⟨by decide, by decide, monitorSAs_close_not_mem⟩

/-- C17, the code at the failing input. A container of a linked environment
in state stopping, on the environment's matching network, with a primary
address and no network-from-container reference, is considered running by
`IsContainerConsideredRunning`, yet `getRegionsInfo` keeps it neither as a
peer nor as a non-peer, and after `Reload` its address is not classified;
the same container in state running is kept and classified as remote. -/
theorem region_drops_stopping_container :
    IsContainerConsideredRunning cStopping = true ∧
    (getRegionsInfo (regionClient [cStopping]) { demoInfo with region := "region-1" }).toOption.map
        (fun regionsInfo => (regionsInfo.peersContainers, regionsInfo.nonPeersContainers)) =
      some ([], []) ∧
    (getRegionsInfo (regionClient [cStoppingBefore])
        { demoInfo with region := "region-1" }).toOption.map
        (fun regionsInfo => (regionsInfo.peersContainers, regionsInfo.nonPeersContainers)) =
      some ([], [cStoppingBefore]) ∧
    "10.42.9.9" ∉ GoMap.keys (RemoteEntriesMap (Reload { mc := regionClient [cStopping] }).1) ∧
    "10.42.9.9" ∈
      GoMap.keys (RemoteEntriesMap (Reload { mc := regionClient [cStoppingBefore] }).1) := by
  decide

/-- C18, counterexample. First snapshot: the self service links to the user
service `apps/web`, which is in the service list; its container `cWebB` is
running and on the self network, a peer network; `Reload` succeeds and the
address 10.42.0.5 is no key of the peers map, because the services map holds
system services only. Second snapshot: the self service links to the system
service `infra/gamma`, whose running container is on a network that is a peer
network through the region; its address 10.42.9.20 is no key of the peers map,
because the network is not listed in the local environment under the name of
the self network. -/
theorem linked_container_not_peer :
    (Reload { mc := userLinkClient }).2 = none ∧
    svcUserWeb ∈ userLinkClient.GetServices.1 ∧
    "apps/web" ∈ GoMap.keys userLinkClient.GetSelfService.1.Links ∧
    cWebB ∈ svcUserWeb.Containers ∧
    IsContainerConsideredRunning cWebB = true ∧
    GoMap.contains (gatherCandidates userLinkClient (reloadInfo userLinkClient)).peersNetworks
      cWebB.NetworkUUID = true ∧
    "10.42.0.5" ∉ GoMap.keys (PeerEntriesMap (Reload { mc := userLinkClient }).1) ∧
    (Reload { mc := regionLinkClient }).2 = none ∧
    svcGamma ∈ regionLinkClient.GetServices.1 ∧
    "infra/gamma" ∈ GoMap.keys regionLinkClient.GetSelfService.1.Links ∧
    cGamma ∈ svcGamma.Containers ∧
    IsContainerConsideredRunning cGamma = true ∧
    GoMap.contains (gatherCandidates regionLinkClient (reloadInfo regionLinkClient)).peersNetworks
      cGamma.NetworkUUID = true ∧
    "10.42.9.20" ∉ GoMap.keys (PeerEntriesMap (Reload { mc := regionLinkClient }).1) := by
  decide

/-- C18, amended. Let the services map be the one `Reload` builds from the
service list. For every system service of the list other than the self
service whose `stack_name/service_name` is a key of the links of the self
service, each container of that service that is considered running and whose
network, looked up among the networks of the local environment, has the name
of the self network has its bare IP as a key of the peers map, bound to an
Entry with the peer flag. -/
theorem linked_service_containers_are_peers (ms : MetadataStore)
    (info : InfoFromMetadata) (s : Service) (c : Container)
    (hmap : info.servicesMapByName = getServicesMapByName info.services info.selfService)
    (hs : s ∈ info.services) (hsys : s.System = true)
    (hne : s.UUID ≠ info.selfService.UUID)
    (hlink : (s.StackName ++ "/" ++ s.Name) ∈ GoMap.keys info.selfService.Links)
    (hc : c ∈ s.Containers) (hrun : IsContainerConsideredRunning c = true)
    (hnet : (GoMap.getD info.networksMap c.NetworkUUID {}).Name = info.selfNetwork.Name) :
    ∃ e, GoMap.get? (PeerEntriesMap (doInternalRefresh ms info))
        (splitFirst (c.PrimaryIp ++ info.selfNetworkSubnetPrefix)) = some e ∧
      e.Peer = true := by
  have hmem : s ∈ GoMap.getD info.servicesMapByName (s.StackName ++ "/" ++ s.Name) [] := by
    rw [hmap]
    exact mem_getServicesMapByName info.services info.selfService s hs hsys hne
  have hpeer : c ∈ peerContainers ms.mc info :=
    allPeersContainers_of_linked ms.mc info c
      (mem_getLinkedPeersInfo info _ s c hlink hmem hc hrun hnet)
  have hkey : bareIP (refreshedInfo ms.mc info) c ∈
      GoMap.keys (buildPeersMap (refreshedInfo ms.mc info) (peerContainers ms.mc info)) :=
    (mem_keys_buildPeersMap _ _ _).2 ⟨c, hpeer, rfl⟩
  obtain ⟨e, he⟩ := (GoMap.mem_keys_iff _ _).1 hkey
  exact ⟨e, he, buildPeersMap_Peer _ _ _ e he⟩

/-- C18, witness: the container of the linked system service `infra/alpha`. -/
theorem linked_service_containers_are_peers_witness :
    ∃ e, GoMap.get? (PeerEntriesMap
        (doInternalRefresh { mc := linkedClient linksAlphaFirst }
          (reloadInfo (linkedClient linksAlphaFirst))))
        (splitFirst (cAlpha.PrimaryIp ++
          (reloadInfo (linkedClient linksAlphaFirst)).selfNetworkSubnetPrefix)) = some e ∧
      e.Peer = true :=
  linked_service_containers_are_peers { mc := linkedClient linksAlphaFirst }
    (reloadInfo (linkedClient linksAlphaFirst)) svcAlpha cAlpha rfl (by decide) (by decide)
    (by decide) (by decide) (by decide) (by decide) (by decide)

/-- C19. After `doInternalRefresh` a bare IP is a key of `local` or of
`remote` exactly when it is the bare IP of a candidate container that is
considered running, whose network is a peer network, that has a primary
address and that has no network-from-container reference; the candidates are
the containers of the local environment followed, when a region is
configured and its environments are fetched, by the peer and the non-peer
containers of the region. -/
theorem classified_keys_eq_candidates (ms : MetadataStore) (info : InfoFromMetadata)
    (k : String) :
    ((k ∈ GoMap.keys (doInternalRefresh ms info).localMap ∨
        k ∈ GoMap.keys (RemoteEntriesMap (doInternalRefresh ms info))) ↔
      ∃ c ∈ info.containers ++ regionCandidates ms.mc info,
        IsContainerConsideredRunning c = true ∧
        GoMap.contains (gatherCandidates ms.mc info).peersNetworks c.NetworkUUID = true ∧
        c.PrimaryIp ≠ "" ∧ c.NetworkFromContainerUUID = "" ∧
        splitFirst (c.PrimaryIp ++ info.selfNetworkSubnetPrefix) = k) ∧
    (info.region = "" → regionCandidates ms.mc info = []) ∧
    (∀ regionsInfo, info.region ≠ "" → getRegionsInfo ms.mc info = Except.ok regionsInfo →
      regionCandidates ms.mc info =
        regionsInfo.peersContainers ++ regionsInfo.nonPeersContainers) := by
  refine ⟨?_, ?_, ?_⟩
  · unfold RemoteEntriesMap
    rw [classified_iff, allContainers_eq]
    constructor
    · rintro ⟨c, hc, hp, hk⟩
      exact ⟨c, hc, ((passesFilters_iff _ c).1 hp).1, ((passesFilters_iff _ c).1 hp).2.1,
        ((passesFilters_iff _ c).1 hp).2.2.1, ((passesFilters_iff _ c).1 hp).2.2.2, hk⟩
    · rintro ⟨c, hc, h1, h2, h3, h4, hk⟩
      exact ⟨c, hc, (passesFilters_iff _ c).2 ⟨h1, h2, h3, h4⟩, hk⟩
  · intro hr
    simp [regionCandidates, hr]
  · intro ri hr hok
    simp [regionCandidates, hr, hok]

/-- C19, witness: with a region configured, the address of a container of
the linked environment is classified. -/
theorem classified_keys_eq_candidates_witness :
    "10.42.9.9" ∈ GoMap.keys (doInternalRefresh { mc := regionClient [cStoppingBefore] }
        { demoInfo with region := "region-1" }).localMap ∨
      "10.42.9.9" ∈ GoMap.keys (RemoteEntriesMap
        (doInternalRefresh { mc := regionClient [cStoppingBefore] }
          { demoInfo with region := "region-1" })) :=
  (classified_keys_eq_candidates { mc := regionClient [cStoppingBefore] }
    { demoInfo with region := "region-1" } "10.42.9.9").1.2
    ⟨cStoppingBefore, by decide, by decide, by decide, by decide, by decide, by decide⟩

end Ipsec
